import Mathlib

/-!
Verification development for the FlowSpec consistency validator
(`src/tools/validateProject.ts`).  The definitions below are a shallow
embedding of the validator: nodes and edges are records with the optional
fields the code probes (`?.` access becomes `Option`), JavaScript `Map` /
`Set` become association lists / lists used only through membership, and
each `for`-loop that pushes issues becomes a `List.flatMap` / `List.foldl`
over the same data in the same order.
-/

set_option maxRecDepth 4000

-- ─── Data model ──────────────────────────────────────────────────

/-- A table column, `{name, type}` from `TableData.columns`. -/
structure Column where
  name : String
  type : String
deriving DecidableEq, Repr

/-- A workflow member, `{name, transformId?}` from `WorkflowMember`
(`logicType` is never read by the validator and is omitted). -/
structure WorkflowMember where
  name : String
  transformId : Option String
deriving DecidableEq, Repr

/-- The fields of a node's `data` bag that the validator reads.  In the
source `data` is `Record<string, unknown>` probed with `?.`, so every
field is optional here; fields the validator never reads are omitted. -/
structure NodeData where
  label : Option String
  type : Option String
  source : Option String
  captures : Option (List String)
  displays : Option (List String)
  columns : Option (List Column)
  members : Option (List WorkflowMember)
deriving DecidableEq, Repr

/-- `CanvasNode`: `id`, `type` and the `data` bag (`position` is ignored
by the validator). -/
structure Node where
  id : String
  type : String
  data : NodeData
deriving DecidableEq, Repr

/-- `CanvasEdge`: `source`, `target` and `data.edgeType` (the only part
of an edge's `data` the validator reads). -/
structure Edge where
  id : String
  source : String
  target : String
  edgeType : Option String
deriving DecidableEq, Repr

-- ─── Severity ────────────────────────────────────────────────────

inductive Severity where
  | error
  | warning
  | info
deriving DecidableEq, Repr

/-- `SEVERITY_MAP` from the source. -/
def SEVERITY_MAP : List (String × Severity) :=
  [("missing-source", Severity.error),
   ("no-inputs", Severity.error),
   ("no-outputs", Severity.error),
   ("insufficient-workflow-members", Severity.error),
   ("workflow-no-outputs", Severity.error),
   ("component-no-datapoints", Severity.error),
   ("circular-dependency", Severity.error),
   ("orphan-node", Severity.error),
   ("wrong-source-type", Severity.warning),
   ("multiple-sources", Severity.warning),
   ("type-mismatch", Severity.warning),
   ("invalid-capture-reference", Severity.warning),
   ("invalid-display-reference", Severity.warning),
   ("duplicate-label", Severity.warning),
   ("datapoint-tbd-type", Severity.warning),
   ("table-column-tbd", Severity.warning),
   ("dangling-member-reference", Severity.warning),
   ("nested-workflow", Severity.warning),
   ("empty-workflow", Severity.warning),
   ("empty-screen", Severity.info)]

/-- Model of JS `String.prototype.toLowerCase` used by the validator:
per-character lowering (ASCII case mapping), written on the character
list so that concrete instances evaluate. -/
def jsToLower (s : String) : String :=
  String.mk (s.data.map Char.toLower)

/-- Model of JS `String.prototype.trim`: drop whitespace from both ends,
written on the character list so that concrete instances evaluate. -/
def jsTrim (s : String) : String :=
  String.mk (((s.data.dropWhile Char.isWhitespace).reverse.dropWhile Char.isWhitespace).reverse)

/-- `severity(violation)`: map lookup, defaulting to `warning`. -/
def severity (violation : String) : Severity :=
  ((SEVERITY_MAP.find? (fun p => p.1 == violation)).map (fun p => p.2)).getD Severity.warning

-- ─── Issue records ───────────────────────────────────────────────

structure DataPointSourceIssue where
  violation : String
  nodeId : String
  label : String
  source : String
  expectedSourceTypes : List String
  actualSourceTypes : List String
  severity : Severity
deriving DecidableEq, Repr

structure TransformIssue where
  violation : String
  nodeId : String
  label : String
  transformType : String
  severity : Severity
deriving DecidableEq, Repr

structure ComponentReferenceIssue where
  violation : String
  nodeId : String
  label : String
  invalidRefs : List String
  severity : Severity
deriving DecidableEq, Repr

structure TableDataPointMismatch where
  violation : String
  dataPointId : String
  dataPointLabel : String
  dataPointType : String
  tableId : String
  tableLabel : String
  columnName : String
  columnType : String
  severity : Severity
deriving DecidableEq, Repr

structure CircularDependency where
  violation : String
  cycle : List String
  labels : List String
  severity : Severity
deriving DecidableEq, Repr

/-- `label` and `detail` are kept optional: the source assigns
`data.label` without a default here, and `detail` is optional. -/
structure WorkflowIssue where
  violation : String
  nodeId : String
  label : Option String
  detail : Option String
  severity : Severity
deriving DecidableEq, Repr

structure OrphanNodeIssue where
  violation : String
  nodeId : String
  label : String
  nodeType : String
  severity : Severity
deriving DecidableEq, Repr

structure TbdIssue where
  violation : String
  nodeId : String
  label : String
  detail : Option String
  severity : Severity
deriving DecidableEq, Repr

structure DuplicateLabelIssue where
  violation : String
  nodeIds : List String
  label : String
  nodeType : String
  severity : Severity
deriving DecidableEq, Repr

-- ─── Workflow member resolver ────────────────────────────────────

/-- `collectWorkflowMemberIds`: all member `transformId`s of workflow
transforms.  The source guards with JavaScript truthiness
(`if (m.transformId)`), so an absent or empty-string id is skipped.
The JS `Set` is modelled as a list used only through membership. -/
def collectWorkflowMemberIds (nodes : List Node) : List String :=
  nodes.foldl (fun ids n =>
    if n.type != "transform" then ids
    else if n.data.type != some ("workflow") then ids
    else match n.data.members with
      | none => ids
      | some ms => ms.foldl (fun acc m =>
          match m.transformId with
          | some tid => if tid != "" then acc ++ [tid] else acc
          | none => acc) ids) []

/-- `nodes.filter((n) => !workflowMemberIds.has(n.id))` from the handler. -/
def nonMemberNodes (nodes : List Node) : List Node :=
  nodes.filter (fun n => !((collectWorkflowMemberIds nodes).contains n.id))

-- ─── 4.1 Provenance check ────────────────────────────────────────

/-- The incoming-edge filter of `validateDataPointSources`: non-`contains`
edges into the datapoint, plus `contains` edges whose source node is not
a table (a missing source node also passes, as `undefined !== 'table'`). -/
def dpIncomingQualifies (nodes : List Node) (dp : Node) (e : Edge) : Bool :=
  if e.target != dp.id then false
  else if e.edgeType == some ("contains") then
    match nodes.find? (fun n => n.id == e.source) with
    | some sn => sn.type != "table"
    | none => true
  else true

/-- Source node types of the qualifying edges, with unresolvable sources
mapped to `'unknown'` and then filtered out, as in the source. -/
def dpSourceNodeTypes (nodes : List Node) (incoming : List Edge) : List String :=
  (incoming.map (fun e =>
    match nodes.find? (fun n => n.id == e.source) with
    | some sn => sn.type
    | none => "unknown")).filter (fun t => t != "unknown")

/-- The `switch (source)` table of expected origin node types. -/
def expectedTypesFor (source : String) : List String :=
  if source == "captured" then ["screen", "component"]
  else if source == "retrieved" then ["table", "transform", "component"]
  else if source == "inferred" then ["transform"]
  else []

/-- Loop body of `validateDataPointSources` for one datapoint.  In the
single-edge case with no resolvable source node the source compares
`expectedTypes.includes(undefined)` (false) and reports the issue with
`[undefined]`; that JS `undefined` is rendered as `"undefined"` here. -/
def dpSourceBody (nodes : List Node) (edges : List Edge) (dp : Node) : List DataPointSourceIssue :=
  let src := dp.data.source.getD ("captured")
  let label := dp.data.label.getD ("Untitled")
  let incoming := edges.filter (dpIncomingQualifies nodes dp)
  let types := dpSourceNodeTypes nodes incoming
  let expected := expectedTypesFor src
  if incoming.length == 0 then
    [⟨"missing-source", dp.id, label, src, expected, [], severity ("missing-source")⟩]
  else if incoming.length > 1 then
    [⟨"multiple-sources", dp.id, label, src, expected, types, severity ("multiple-sources")⟩]
  else
    match types.head? with
    | some t =>
      if expected.contains t then []
      else [⟨"wrong-source-type", dp.id, label, src, expected, [t], severity ("wrong-source-type")⟩]
    | none => [⟨"wrong-source-type", dp.id, label, src, expected, ["undefined"], severity ("wrong-source-type")⟩]

def validateDataPointSources (nodes : List Node) (edges : List Edge) : List DataPointSourceIssue :=
  (nodes.filter (fun n => n.type == "datapoint")).flatMap (dpSourceBody nodes edges)

-- ─── 4.2 Transform I/O check ─────────────────────────────────────

/-- Candidate filter of `validateTransforms`: transforms whose
`data.type ?? 'formula'` is not `'workflow'`. -/
def transformCandidate (n : Node) : Bool :=
  n.type == "transform" && n.data.type.getD ("formula") != "workflow"

/-- Loop body of `validateTransforms` for one transform. -/
def transformBody (edges : List Edge) (t : Node) : List TransformIssue :=
  let label := t.data.label.getD ("Untitled")
  let ttype := t.data.type.getD ("formula")
  let incoming := edges.filter (fun e => e.target == t.id && e.edgeType != some ("contains"))
  let outgoing := edges.filter (fun e => e.source == t.id && e.edgeType != some ("contains"))
  (if incoming.length == 0 then
    [⟨"no-inputs", t.id, label, ttype, severity ("no-inputs")⟩] else []) ++
  (if outgoing.length == 0 then
    [⟨"no-outputs", t.id, label, ttype, severity ("no-outputs")⟩] else [])

def validateTransforms (nodes : List Node) (edges : List Edge) : List TransformIssue :=
  (nodes.filter transformCandidate).flatMap (transformBody edges)

-- ─── 4.3 Component reference check ───────────────────────────────

/-- `nodes.map((n) => n.data?.label).filter(Boolean)`: present, non-empty
labels (JS `filter(Boolean)` drops `undefined` and `''`). -/
def nodeLabels (nodes : List Node) : List String :=
  (nodes.map (fun n => n.data.label)).filterMap (fun o =>
    match o with
    | some l => if l == "" then none else some l
    | none => none)

/-- An entry resolves when it is a known node id or a known (non-empty)
node label. -/
def refResolves (ids : List String) (labels : List String) (r : String) : Bool :=
  ids.contains r || labels.contains r

/-- Loop body of `validateComponentReferences` for one component. -/
def componentBody (nodes : List Node) (edges : List Edge) (c : Node) : List ComponentReferenceIssue :=
  let label := c.data.label.getD ("Untitled")
  let captures := c.data.captures.getD []
  let displays := c.data.displays.getD []
  let ids := nodes.map (fun n => n.id)
  let labels := nodeLabels nodes
  let invalidCaptures := captures.filter (fun r => !(refResolves ids labels r))
  let invalidDisplays := displays.filter (fun r => !(refResolves ids labels r))
  let connected := edges.filter (fun e => e.source == c.id || e.target == c.id)
  let hasDp := connected.any (fun e =>
    let otherId := if e.source == c.id then e.target else e.source
    match nodes.find? (fun n => n.id == otherId) with
    | some other => other.type == "datapoint"
    | none => false)
  (if invalidCaptures.length > 0 then
    [⟨"invalid-capture-reference", c.id, label, invalidCaptures, severity ("invalid-capture-reference")⟩] else []) ++
  (if invalidDisplays.length > 0 then
    [⟨"invalid-display-reference", c.id, label, invalidDisplays, severity ("invalid-display-reference")⟩] else []) ++
  (if hasDp then [] else
    [⟨"component-no-datapoints", c.id, label, [], severity ("component-no-datapoints")⟩])

def validateComponentReferences (nodes : List Node) (edges : List Edge) : List ComponentReferenceIssue :=
  (nodes.filter (fun n => n.type == "component")).flatMap (componentBody nodes edges)

-- ─── 4.4 Table / datapoint type reconciliation ───────────────────

/-- Edges into `dp` whose source node is a table. -/
def dpTableEdges (nodes : List Node) (edges : List Edge) (dp : Node) : List Edge :=
  edges.filter (fun e =>
    e.target == dp.id &&
    (match nodes.find? (fun n => n.id == e.source) with
     | some sn => sn.type == "table"
     | none => false))

/-- Inner loop body of `validateTableDataPointTypes` for one table edge:
look the table up among table nodes, find the first column whose
lowercased-then-trimmed name equals the datapoint's lowercased-then-
trimmed label, and report when both types are concrete and differ.  The
JS comparison `matchingColumn.type !== dp.data?.type` is between a
string and a possibly-undefined value, hence `some col.type != dp.data.type`. -/
def mismatchForEdge (nodes : List Node) (dp : Node) (e : Edge) : List TableDataPointMismatch :=
  match (nodes.filter (fun n => n.type == "table")).find? (fun t => t.id == e.source) with
  | none => []
  | some table =>
    let dpLabel := jsTrim (jsToLower (dp.data.label.getD ("")))
    match (table.data.columns.getD []).find? (fun col => jsTrim (jsToLower col.name) == dpLabel) with
    | none => []
    | some col =>
      if some col.type != dp.data.type && dp.data.type != some ("tbd") && col.type != "tbd" then
        [⟨"type-mismatch", dp.id, dp.data.label.getD ("Untitled"), dp.data.type.getD ("unknown"),
          table.id, table.data.label.getD ("Untitled"), col.name, col.type, severity ("type-mismatch")⟩]
      else []

def validateTableDataPointTypes (nodes : List Node) (edges : List Edge) : List TableDataPointMismatch :=
  (nodes.filter (fun n => n.type == "datapoint" && n.data.source == some ("retrieved"))).flatMap
    (fun dp => (dpTableEdges nodes edges dp).flatMap (mismatchForEdge nodes dp))

-- ─── 4.5 Cycle detector ──────────────────────────────────────────

/-- Association-list model of the JS `Map<string, string[]>`: lookup. -/
def alGet (m : List (String × List String)) (k : String) : Option (List String) :=
  (m.find? (fun p => p.1 == k)).map (fun p => p.2)

/-- Association-list model of `Map.set`: replace in place or append. -/
def alSet (m : List (String × List String)) (k : String) (v : List String) : List (String × List String) :=
  if m.any (fun p => p.1 == k) then m.map (fun p => if p.1 == k then (k, v) else p)
  else m ++ [(k, v)]

/-- `adjacency.set(node.id, [])` for every node. -/
def initAdjacency (nodes : List Node) : List (String × List String) :=
  nodes.foldl (fun m n => alSet m n.id []) []

/-- The edge kinds that feed the cycle detector's adjacency. -/
def isComputationEdge (e : Edge) : Bool :=
  e.edgeType == some ("derives-from") || e.edgeType == some ("transforms")

/-- Adjacency restricted to `derives-from` / `transforms` edges. -/
def buildAdjacency (nodes : List Node) (edges : List Edge) : List (String × List String) :=
  edges.foldl (fun m e =>
    if isComputationEdge e then alSet m e.source (((alGet m e.source).getD []) ++ [e.target])
    else m) (initAdjacency nodes)

/-- Shared mutable state of the DFS (`visited`, `recStack`, `cycles`);
the JS `Set`s are lists used only through membership, and the code never
inserts a present element. -/
structure DfsState where
  visited : List String
  recStack : List String
  cycles : List (List String)
deriving DecidableEq, Repr

/-- The recursive `dfs` of `detectCircularDependencies`, with an explicit
fuel for termination (the caller passes more fuel than the recursion can
ever consume, so the `0` branch is unreachable).  `path` is copied per
call as in the source (`[...path]`).  The unreachable JS corner
`path.indexOf(neighbor) === -1` (then `slice(-1)` keeps the last path
element) is mirrored by the `path.contains` branch. -/
def dfs (adj : List (String × List String)) (fuel : Nat) (nodeId : String)
    (path0 : List String) (st0 : DfsState) : DfsState :=
  match fuel with
  | 0 => st0
  | Nat.succ fuel1 =>
    let st1 : DfsState := ⟨nodeId :: st0.visited, nodeId :: st0.recStack, st0.cycles⟩
    let path := path0 ++ [nodeId]
    let st2 := ((alGet adj nodeId).getD []).foldl (fun st neighbor =>
      if !(st.visited.contains neighbor) then dfs adj fuel1 neighbor path st
      else if st.recStack.contains neighbor then
        let cycle := if path.contains neighbor then path.drop (path.indexOf neighbor)
                     else path.drop (path.length - 1)
        ⟨st.visited, st.recStack, st.cycles ++ [cycle ++ [neighbor]]⟩
      else st) st1
    ⟨st2.visited, st2.recStack.erase nodeId, st2.cycles⟩

/-- Insertion sort on strings, mirroring the JS default ascending sort
used to build the cycle dedup key. -/
def insertSorted (s : String) : List String → List String
  | [] => [s]
  | t :: ts => if s ≤ t then s :: t :: ts else t :: insertSorted s ts

def sortStrings (l : List String) : List String :=
  l.foldr insertSorted []

/-- `detectCircularDependencies`: build the computation-edge adjacency,
DFS from every unvisited node, then deduplicate cycles by their sorted
id list.  The fuel bound exceeds any possible recursion depth (each
recursive call visits a previously unvisited id, and every id reachable
by the DFS is a node id or a computation-edge target). -/
def detectCircularDependencies (nodes : List Node) (edges : List Edge) : List CircularDependency :=
  let adj := buildAdjacency nodes edges
  let fuel := nodes.length + (edges.filter isComputationEdge).length + 1
  let final := nodes.foldl (fun st n =>
    if st.visited.contains n.id then st else dfs adj fuel n.id [] st) ⟨[], [], []⟩
  let dedup := final.cycles.foldl (fun acc cycle =>
    let normalized := String.intercalate ("->") (sortStrings cycle)
    if acc.1.contains normalized then acc
    else (acc.1 ++ [normalized],
          acc.2 ++ [⟨"circular-dependency", cycle,
            cycle.map (fun i =>
              match nodes.find? (fun n => n.id == i) with
              | some n => n.data.label.getD ("Unknown")
              | none => "Unknown"),
            severity ("circular-dependency")⟩])) (([] : List String), ([] : List CircularDependency))
  dedup.2

-- ─── 4.6 Workflow structure check ────────────────────────────────

/-- Dangling-member loop body: JS truthiness makes an absent or empty
`transformId` skip the check. -/
def memberDangling (nodeIds : List String) (n : Node) (label : Option String)
    (m : WorkflowMember) : List WorkflowIssue :=
  match m.transformId with
  | some tid =>
    if tid != "" && !(nodeIds.contains tid) then
      [⟨"dangling-member-reference", n.id, label,
        some ("Member \"" ++ m.name ++ "\" references missing transform " ++ tid),
        severity ("dangling-member-reference")⟩]
    else []
  | none => []

/-- Nested-workflow loop body. -/
def memberNested (nodes : List Node) (n : Node) (label : Option String)
    (m : WorkflowMember) : List WorkflowIssue :=
  match m.transformId with
  | some tid =>
    if tid == "" then []
    else
      match nodes.find? (fun mn => mn.id == tid) with
      | some memberNode =>
        if memberNode.type == "transform" && memberNode.data.type == some ("workflow") then
          [⟨"nested-workflow", n.id, label,
            some ("Member \"" ++ m.name ++ "\" is itself a workflow (nesting not supported)"),
            severity ("nested-workflow")⟩]
        else []
      | none => []
  | none => []

/-- Loop body of `validateWorkflows` for one node: only workflow-typed
transforms are examined; empty members short-circuit (`continue`). -/
def workflowBody (nodes : List Node) (edges : List Edge) (n : Node) : List WorkflowIssue :=
  if n.type != "transform" then []
  else if n.data.type != some ("workflow") then []
  else
    let label := n.data.label
    match n.data.members with
    | none => [⟨"empty-workflow", n.id, label, none, severity ("empty-workflow")⟩]
    | some ms =>
      if ms.length == 0 then [⟨"empty-workflow", n.id, label, none, severity ("empty-workflow")⟩]
      else
        let nodeIds := nodes.map (fun x => x.id)
        (if ms.length < 2 then
          [⟨"insufficient-workflow-members", n.id, label,
            some ("Workflow has only " ++ toString ms.length ++ " member (need at least 2)"),
            severity ("insufficient-workflow-members")⟩] else []) ++
        (if (edges.filter (fun e => e.source == n.id)).length == 0 then
          [⟨"workflow-no-outputs", n.id, label, some ("Workflow has no output connections"),
            severity ("workflow-no-outputs")⟩] else []) ++
        ms.flatMap (memberDangling nodeIds n label) ++
        ms.flatMap (memberNested nodes n label)

def validateWorkflows (nodes : List Node) (edges : List Edge) : List WorkflowIssue :=
  nodes.flatMap (workflowBody nodes edges)

-- ─── 4.7 Orphan check ────────────────────────────────────────────

def validateOrphans (nodes : List Node) (edges : List Edge) : List OrphanNodeIssue :=
  let connected := edges.flatMap (fun e => [e.source, e.target])
  (nodes.filter (fun n =>
    n.type != "image" && n.type != "screen" && !(connected.contains n.id))).map (fun n =>
      ⟨"orphan-node", n.id, n.data.label.getD ("Untitled"), n.type, severity ("orphan-node")⟩)

-- ─── 4.9 TBD check ───────────────────────────────────────────────

def tbdBody (n : Node) : List TbdIssue :=
  (if n.type == "datapoint" && n.data.type == some ("tbd") then
    [⟨"datapoint-tbd-type", n.id, n.data.label.getD ("Untitled"),
      some ("DataPoint type is TBD"), severity ("datapoint-tbd-type")⟩] else []) ++
  (if n.type == "table" then
    (n.data.columns.getD []).flatMap (fun col =>
      if col.type == "tbd" then
        [⟨"table-column-tbd", n.id, n.data.label.getD ("Untitled"),
          some ("Column \"" ++ col.name ++ "\" has type TBD"), severity ("table-column-tbd")⟩]
      else [])
   else [])

def validateTbdIssues (nodes : List Node) : List TbdIssue :=
  nodes.flatMap tbdBody

-- ─── 4.9 Duplicate label check ───────────────────────────────────

structure LabelGroup where
  ids : List String
  type : String
deriving DecidableEq, Repr

/-- `label.trim().toLowerCase()` (trim first, as in the source). -/
def normLabel (n : Node) : String :=
  jsToLower (jsTrim (n.data.label.getD ("")))

/-- The string grouping key, `type + ':' + normalized label`. -/
def dupKey (n : Node) : String :=
  n.type ++ ":" ++ normLabel n

/-- One step of the grouping loop of `validateDuplicateLabels`. -/
def dupFold (groups : List (String × LabelGroup)) (n : Node) : List (String × LabelGroup) :=
  if n.type == "image" || n.type == "screen" then groups
  else if normLabel n == "" then groups
  else
    let key := dupKey n
    match groups.find? (fun p => p.1 == key) with
    | some p => groups.map (fun q => if q.1 == key then (key, ⟨p.2.ids ++ [n.id], p.2.type⟩) else q)
    | none => groups ++ [(key, ⟨[n.id], n.type⟩)]

def validateDuplicateLabels (nodes : List Node) : List DuplicateLabelIssue :=
  let groups := nodes.foldl dupFold []
  groups.flatMap (fun p =>
    if p.2.ids.length < 2 then []
    else
      let firstLabel := match p.2.ids.head? with
        | some fid =>
          match nodes.find? (fun n => n.id == fid) with
          | some fn => fn.data.label.getD ("")
          | none => ""
        | none => ""
      [⟨"duplicate-label", p.2.ids, firstLabel, p.2.type, severity ("duplicate-label")⟩])

-- ─── Handler pipeline (`handleValidateProject`) ──────────────────

def dataPointIssuesOf (nodes : List Node) (edges : List Edge) : List DataPointSourceIssue :=
  validateDataPointSources (nonMemberNodes nodes) edges

def transformIssuesOf (nodes : List Node) (edges : List Edge) : List TransformIssue :=
  validateTransforms (nonMemberNodes nodes) edges

def componentIssuesOf (nodes : List Node) (edges : List Edge) : List ComponentReferenceIssue :=
  validateComponentReferences (nonMemberNodes nodes) edges

def tableMismatchesOf (nodes : List Node) (edges : List Edge) : List TableDataPointMismatch :=
  validateTableDataPointTypes (nonMemberNodes nodes) edges

def circularIssuesOf (nodes : List Node) (edges : List Edge) : List CircularDependency :=
  detectCircularDependencies (nonMemberNodes nodes) edges

/-- The workflow check alone receives the full node list. -/
def workflowIssuesOf (nodes : List Node) (edges : List Edge) : List WorkflowIssue :=
  validateWorkflows nodes edges

def orphanIssuesOf (nodes : List Node) (edges : List Edge) : List OrphanNodeIssue :=
  validateOrphans (nonMemberNodes nodes) edges

def tbdIssuesOf (nodes : List Node) : List TbdIssue :=
  validateTbdIssues (nonMemberNodes nodes)

def duplicateIssuesOf (nodes : List Node) : List DuplicateLabelIssue :=
  validateDuplicateLabels (nonMemberNodes nodes)

/-- Severities of `allIssues`, in the handler's concatenation order. -/
def allSeveritiesOf (nodes : List Node) (edges : List Edge) : List Severity :=
  (dataPointIssuesOf nodes edges).map (fun i => i.severity) ++
  (transformIssuesOf nodes edges).map (fun i => i.severity) ++
  (componentIssuesOf nodes edges).map (fun i => i.severity) ++
  (tableMismatchesOf nodes edges).map (fun i => i.severity) ++
  (circularIssuesOf nodes edges).map (fun i => i.severity) ++
  (workflowIssuesOf nodes edges).map (fun i => i.severity) ++
  (orphanIssuesOf nodes edges).map (fun i => i.severity) ++
  (tbdIssuesOf nodes).map (fun i => i.severity) ++
  (duplicateIssuesOf nodes).map (fun i => i.severity)

structure Counts where
  total : Nat
  error : Nat
  warning : Nat
  info : Nat
deriving DecidableEq, Repr

def countsOf (nodes : List Node) (edges : List Edge) : Counts :=
  let sevs := allSeveritiesOf nodes edges
  ⟨sevs.length,
   (sevs.filter (fun s => s == Severity.error)).length,
   (sevs.filter (fun s => s == Severity.warning)).length,
   (sevs.filter (fun s => s == Severity.info)).length⟩

def severityText : Severity → String
  | Severity.error => "error"
  | Severity.warning => "warning"
  | Severity.info => "info"

/-- JS `x !== 1 ? 's' : ''`. -/
def plural (n : Nat) : String :=
  if n != 1 then "s" else ""

/-- The JS replace of every dash in the violation name by a space. -/
def dashToSpace (v : String) : String :=
  v.replace ("-") (" ")

/-- Rendering of a possibly-undefined label in a JS template literal. -/
def optText (o : Option String) : String :=
  o.getD ("undefined")

/-- `issue.detail ? ' — ' + issue.detail : ''` (JS truthiness: an empty
string renders nothing). -/
def detailSuffix (o : Option String) : String :=
  match o with
  | some d => if d == "" then "" else " — " ++ d
  | none => ""

def noIssuesLine : String :=
  "All data flow rules passed — no issues found."

/-- The formatted report of `handleValidateProject`, one string per
pushed line, in source order. -/
def reportLines (projectName : String) (nodes : List Node) (edges : List Edge) : List String :=
  let dpI := dataPointIssuesOf nodes edges
  let trI := transformIssuesOf nodes edges
  let cpI := componentIssuesOf nodes edges
  let tmI := tableMismatchesOf nodes edges
  let ccI := circularIssuesOf nodes edges
  let wfI := workflowIssuesOf nodes edges
  let orI := orphanIssuesOf nodes edges
  let tbI := tbdIssuesOf nodes
  let dlI := duplicateIssuesOf nodes
  let c := countsOf nodes edges
  let header := "## Data Flow Validation for " ++ projectName
  if c.total == 0 then [header, "", noIssuesLine]
  else
    [header, "",
     "**" ++ toString c.total ++ " issue" ++ plural c.total ++ " found** — " ++
       toString c.error ++ " error" ++ plural c.error ++ ", " ++
       toString c.warning ++ " warning" ++ plural c.warning ++ ", " ++
       toString c.info ++ " info"] ++
    (if dpI.length > 0 then
      ["", "### DataPoint Source Issues (" ++ toString dpI.length ++ ")"] ++
      dpI.flatMap (fun i =>
        ["- [" ++ severityText i.severity ++ "] **" ++ i.label ++ "** (" ++ i.source ++ "): " ++
           dashToSpace i.violation,
         "  - Expected: " ++ String.intercalate (", ") i.expectedSourceTypes] ++
        (if i.actualSourceTypes.length > 0 then
          ["  - Actual: " ++ String.intercalate (", ") i.actualSourceTypes] else []))
     else []) ++
    (if trI.length > 0 then
      ["", "### Transform Issues (" ++ toString trI.length ++ ")"] ++
      trI.map (fun i =>
        "- [" ++ severityText i.severity ++ "] **" ++ i.label ++ "** (" ++ i.transformType ++ "): " ++
          dashToSpace i.violation)
     else []) ++
    (if wfI.length > 0 then
      ["", "### Workflow Issues (" ++ toString wfI.length ++ ")"] ++
      wfI.map (fun i =>
        "- [" ++ severityText i.severity ++ "] **" ++ optText i.label ++ "**: " ++
          dashToSpace i.violation ++ detailSuffix i.detail)
     else []) ++
    (if cpI.length > 0 then
      ["", "### Component Reference Issues (" ++ toString cpI.length ++ ")"] ++
      cpI.flatMap (fun i =>
        ["- [" ++ severityText i.severity ++ "] **" ++ i.label ++ "**: " ++ dashToSpace i.violation] ++
        (if i.invalidRefs.length > 0 then
          ["  - Invalid IDs: " ++ String.intercalate (", ") i.invalidRefs] else []))
     else []) ++
    (if tmI.length > 0 then
      ["", "### Type Mismatches (" ++ toString tmI.length ++ ")"] ++
      tmI.map (fun i =>
        "- [" ++ severityText i.severity ++ "] **" ++ i.dataPointLabel ++ "** (" ++ i.dataPointType ++
          ") <- **" ++ i.tableLabel ++ "." ++ i.columnName ++ "** (" ++ i.columnType ++ ")")
     else []) ++
    (if ccI.length > 0 then
      ["", "### Circular Dependencies (" ++ toString ccI.length ++ ")"] ++
      ccI.map (fun i =>
        "- [" ++ severityText i.severity ++ "] Cycle: " ++ String.intercalate (" -> ") i.labels)
     else []) ++
    (if orI.length > 0 then
      ["", "### Orphan Nodes (" ++ toString orI.length ++ ")"] ++
      orI.map (fun i =>
        "- [" ++ severityText i.severity ++ "] **" ++ i.label ++ "** (" ++ i.nodeType ++ ") — no edges")
     else []) ++
    (if tbI.length > 0 then
      ["", "### TBD Issues (" ++ toString tbI.length ++ ")"] ++
      tbI.map (fun i =>
        "- [" ++ severityText i.severity ++ "] **" ++ i.label ++ "**: " ++
          (match i.detail with
           | some d => d
           | none => dashToSpace i.violation))
     else []) ++
    (if dlI.length > 0 then
      ["", "### Duplicate Labels (" ++ toString dlI.length ++ ")"] ++
      dlI.map (fun i =>
        "- [" ++ severityText i.severity ++ "] **" ++ i.label ++ "** (" ++ i.nodeType ++ ") — " ++
          toString i.nodeIds.length ++ " nodes with same label")
     else [])

-- ─── Proof infrastructure ────────────────────────────────────────

/-- Issues produced by a per-node body carry that node's id; with
duplicate-free ids, filtering the aggregated output by one node's id
recovers exactly that node's body output. -/
theorem filter_key_flatMap {α β : Type} (f : α → List β) (key : β → String) (idf : α → String)
    (hkey : ∀ a b, b ∈ f a → key b = idf a) :
    ∀ (l : List α), (l.map idf).Nodup → ∀ a ∈ l,
      (l.flatMap f).filter (fun b => key b == idf a) = f a := by
  intro l
  induction l with
  | nil => intro _ a ha; cases ha
  | cons x xs ih =>
    intro hnd a ha
    rw [List.map_cons, List.nodup_cons] at hnd
    obtain ⟨hx, hnd1⟩ := hnd
    rcases List.mem_cons.mp ha with rfl | hmem
    · rw [List.flatMap_cons, List.filter_append]
      have h1 : (f a).filter (fun b => key b == idf a) = f a :=
        List.filter_eq_self.mpr (fun b hb => by simp [hkey a b hb])
      have h2 : (xs.flatMap f).filter (fun b => key b == idf a) = [] := by
        refine List.filter_eq_nil_iff.mpr ?_
        intro b hb
        obtain ⟨u, hu, hbu⟩ := List.mem_flatMap.mp hb
        have : key b = idf u := hkey u b hbu
        simp only [this]
        intro hEq
        exact hx (by
          have : idf u = idf a := by simpa using hEq
          exact this ▸ List.mem_map_of_mem idf hu)
      rw [h1, h2, List.append_nil]
    · rw [List.flatMap_cons, List.filter_append]
      have hne : idf x ≠ idf a := by
        intro hEq
        exact hx (hEq ▸ List.mem_map_of_mem idf hmem)
      have h1 : (f x).filter (fun b => key b == idf a) = [] := by
        refine List.filter_eq_nil_iff.mpr ?_
        intro b hb
        have : key b = idf x := hkey x b hb
        simp [this, hne]
      rw [h1, List.nil_append]
      exact ih hnd1 a hmem

/-- Filtering a node list preserves duplicate-freedom of the ids. -/
theorem filter_ids_nodup (ns : List Node) (p : Node → Bool)
    (h : (ns.map Node.id).Nodup) : ((ns.filter p).map Node.id).Nodup :=
  List.Nodup.sublist (List.Sublist.map Node.id (List.filter_sublist ns)) h

/-- The handler's member-filtered node list keeps ids duplicate-free. -/
theorem nonMember_ids_nodup (nodes : List Node)
    (h : (nodes.map Node.id).Nodup) : ((nonMemberNodes nodes).map Node.id).Nodup :=
  filter_ids_nodup nodes _ h

/-- `'unknown'` is never one of the expected origin types. -/
theorem unknown_not_expected (s : String) : "unknown" ∉ expectedTypesFor s := by
  unfold expectedTypesFor
  split_ifs <;> decide

/-- Every issue a datapoint's provenance body emits names that datapoint. -/
theorem dpSourceBody_nodeId (ns : List Node) (es : List Edge) (dp : Node)
    (i : DataPointSourceIssue) (h : i ∈ dpSourceBody ns es dp) : i.nodeId = dp.id := by
  unfold dpSourceBody at h
  dsimp only at h
  split at h
  · simp only [List.mem_singleton] at h; subst h; rfl
  · split at h
    · simp only [List.mem_singleton] at h; subst h; rfl
    · split at h
      · split at h
        · cases h
        · simp only [List.mem_singleton] at h; subst h; rfl
      · simp only [List.mem_singleton] at h; subst h; rfl

/-- Provenance body, zero qualifying edges: exactly the missing-source issue. -/
theorem dpSourceBody_zero (ns : List Node) (es : List Edge) (dp : Node)
    (h : es.filter (dpIncomingQualifies ns dp) = []) :
    (dpSourceBody ns es dp).map (fun i => i.violation) = ["missing-source"] := by
  simp only [dpSourceBody, h]
  rfl

/-- Provenance body, more than one qualifying edge: exactly the
multiple-sources issue. -/
theorem dpSourceBody_multi (ns : List Node) (es : List Edge) (dp : Node)
    (h : 1 < (es.filter (dpIncomingQualifies ns dp)).length) :
    (dpSourceBody ns es dp).map (fun i => i.violation) = ["multiple-sources"] := by
  have h0 : ((es.filter (dpIncomingQualifies ns dp)).length == 0) = false := by
    rw [beq_eq_false_iff_ne]
    omega
  simp only [dpSourceBody, h0]
  rw [if_neg (by simp), if_pos h]
  rfl

/-- Provenance body, exactly one qualifying edge with a resolvable source
node: clean when the source type is expected, wrong-source-type otherwise. -/
theorem dpSourceBody_one (ns : List Node) (es : List Edge) (dp : Node) (e : Edge) (sn : Node)
    (h : es.filter (dpIncomingQualifies ns dp) = [e])
    (hf : ns.find? (fun n => n.id == e.source) = some sn) :
    (sn.type ∉ expectedTypesFor (dp.data.source.getD ("captured")) →
      (dpSourceBody ns es dp).map (fun i => i.violation) = ["wrong-source-type"]) ∧
    (sn.type ∈ expectedTypesFor (dp.data.source.getD ("captured")) →
      dpSourceBody ns es dp = []) := by
  by_cases hu : sn.type = "unknown"
  · have htypes : dpSourceNodeTypes ns [e] = [] := by
      unfold dpSourceNodeTypes
      simp [hf, hu]
    constructor
    · intro _
      simp only [dpSourceBody, h, htypes]
      rfl
    · intro hin
      exact absurd (hu ▸ hin) (unknown_not_expected _)
  · have htypes : dpSourceNodeTypes ns [e] = [sn.type] := by
      unfold dpSourceNodeTypes
      simp [hf, hu]
    have hred : dpSourceBody ns es dp =
        if (expectedTypesFor (dp.data.source.getD ("captured"))).contains sn.type = true then []
        else [⟨"wrong-source-type", dp.id, dp.data.label.getD ("Untitled"),
              dp.data.source.getD ("captured"),
              expectedTypesFor (dp.data.source.getD ("captured")), [sn.type],
              severity ("wrong-source-type")⟩] := by
      simp only [dpSourceBody, h, htypes]
      rfl
    constructor
    · intro hnin
      have hcont : (expectedTypesFor (dp.data.source.getD ("captured"))).contains sn.type = false := by
        rw [← Bool.not_eq_true]
        intro hc
        exact hnin (List.elem_iff.mp hc)
      rw [hred, hcont]
      rfl
    · intro hin
      have hcont : (expectedTypesFor (dp.data.source.getD ("captured"))).contains sn.type = true :=
        List.elem_iff.mpr hin
      rw [hred, hcont]
      rfl

/-- The provenance issues the pipeline reports for one non-member
datapoint are exactly its body's output. -/
theorem dataPointIssues_for_node (nodes : List Node) (edges : List Edge) (dp : Node)
    (hnd : (nodes.map Node.id).Nodup) (hmem : dp ∈ nonMemberNodes nodes)
    (hdp : dp.type = "datapoint") :
    (dataPointIssuesOf nodes edges).filter (fun i => i.nodeId == dp.id) =
      dpSourceBody (nonMemberNodes nodes) edges dp := by
  have hdpmem : dp ∈ (nonMemberNodes nodes).filter (fun n => n.type == "datapoint") :=
    List.mem_filter.mpr ⟨hmem, by simp [hdp]⟩
  unfold dataPointIssuesOf validateDataPointSources
  exact filter_key_flatMap _ (fun i => i.nodeId) Node.id
    (fun a b hb => dpSourceBody_nodeId _ _ a b hb) _
    (filter_ids_nodup _ _ (nonMember_ids_nodup nodes hnd)) dp hdpmem

/-- C1: for a non-member datapoint the provenance check has exactly one
outcome, determined by the qualifying incoming edges (all non-contains
incoming edges plus contains edges not sourced at a table): zero edges
give exactly one missing-source issue and nothing else for the node,
two or more give exactly one multiple-sources issue, a single edge whose
source node's type is outside the expected set for the declared source
(captured -> screen/component, retrieved -> table/transform/component,
inferred -> transform) gives exactly one wrong-source-type issue, and a
single edge of an expected type gives no issue. -/
theorem claim_C1 :
    (expectedTypesFor ("captured") = ["screen", "component"] ∧
     expectedTypesFor ("retrieved") = ["table", "transform", "component"] ∧
     expectedTypesFor ("inferred") = ["transform"]) ∧
    ∀ (nodes : List Node) (edges : List Edge) (dp : Node),
      (nodes.map Node.id).Nodup →
      dp ∈ nonMemberNodes nodes →
      dp.type = "datapoint" →
      ((edges.filter (dpIncomingQualifies (nonMemberNodes nodes) dp) = [] →
         ((dataPointIssuesOf nodes edges).filter (fun i => i.nodeId == dp.id)).map
           (fun i => i.violation) = ["missing-source"]) ∧
       (1 < (edges.filter (dpIncomingQualifies (nonMemberNodes nodes) dp)).length →
         ((dataPointIssuesOf nodes edges).filter (fun i => i.nodeId == dp.id)).map
           (fun i => i.violation) = ["multiple-sources"]) ∧
       (∀ (e : Edge) (sn : Node),
         edges.filter (dpIncomingQualifies (nonMemberNodes nodes) dp) = [e] →
         (nonMemberNodes nodes).find? (fun n => n.id == e.source) = some sn →
         (sn.type ∉ expectedTypesFor (dp.data.source.getD ("captured")) →
           ((dataPointIssuesOf nodes edges).filter (fun i => i.nodeId == dp.id)).map
             (fun i => i.violation) = ["wrong-source-type"]) ∧
         (sn.type ∈ expectedTypesFor (dp.data.source.getD ("captured")) →
           (dataPointIssuesOf nodes edges).filter (fun i => i.nodeId == dp.id) = []))) := by
  refine ⟨⟨rfl, rfl, rfl⟩, ?_⟩
  intro nodes edges dp hnd hmem hdp
  have hk := dataPointIssues_for_node nodes edges dp hnd hmem hdp
  refine ⟨?_, ?_, ?_⟩
  · intro hq
    rw [hk]
    exact dpSourceBody_zero _ _ _ hq
  · intro hq
    rw [hk]
    exact dpSourceBody_multi _ _ _ hq
  · intro e sn hq hf
    have hone := dpSourceBody_one _ _ _ _ _ hq hf
    exact ⟨fun hnin => hk ▸ hone.1 hnin, fun hin => hk ▸ hone.2 hin⟩

def c1dp : Node := ⟨"d", "datapoint", ⟨some ("D"), some ("string"), some ("captured"), none, none, none, none⟩⟩

def c1tb : Node := ⟨"t", "table", ⟨some ("T"), none, none, none, none, some [], none⟩⟩

def c1edge : Edge := ⟨"e", "t", "d", some ("flows-to")⟩

/-- Witness for C1: a captured datapoint fed by a single edge from a
table is reported with exactly one wrong-source-type issue. -/
theorem claim_C1_witness :
    ((dataPointIssuesOf [c1dp, c1tb] [c1edge]).filter (fun i => i.nodeId == c1dp.id)).map
      (fun i => i.violation) = ["wrong-source-type"] :=
  ((claim_C1.2 [c1dp, c1tb] [c1edge] c1dp (by decide) (by decide) (by decide)).2.2
    c1edge c1tb (by decide) (by decide)).1 (by decide)

/-- A transform with `data.type` other than `'workflow'` (or absent) is a
candidate of the transform I/O check. -/
theorem transformCandidate_true (t : Node) (h2 : t.type = "transform")
    (h3 : t.data.type ≠ some ("workflow")) : transformCandidate t = true := by
  unfold transformCandidate
  cases hts : t.data.type with
  | none => simp [h2, hts]
  | some s =>
    have hs : s ≠ "workflow" := fun hh => h3 (by rw [hts, hh])
    simp [h2, hts, hs]

/-- Membership characterization of the transform I/O body. -/
theorem transformBody_mem_iff (edges : List Edge) (u : Node) (i : TransformIssue) :
    i ∈ transformBody edges u ↔
      ((edges.filter (fun e => e.target == u.id && e.edgeType != some ("contains"))).length = 0 ∧
        i = ⟨"no-inputs", u.id, u.data.label.getD ("Untitled"), u.data.type.getD ("formula"),
             severity ("no-inputs")⟩) ∨
      ((edges.filter (fun e => e.source == u.id && e.edgeType != some ("contains"))).length = 0 ∧
        i = ⟨"no-outputs", u.id, u.data.label.getD ("Untitled"), u.data.type.getD ("formula"),
             severity ("no-outputs")⟩) := by
  by_cases h1 : (edges.filter (fun e => e.target == u.id && e.edgeType != some ("contains"))).length = 0 <;>
    by_cases h2 : (edges.filter (fun e => e.source == u.id && e.edgeType != some ("contains"))).length = 0 <;>
    simp [transformBody, h1, h2]

/-- C3: a non-member transform whose `data.type` is not `'workflow'` gets
a no-inputs issue iff it has zero non-contains incoming edges, and a
no-outputs issue iff it has zero non-contains outgoing edges; the two
conditions are independent (the iffs hold separately whatever the other
side is). -/
theorem claim_C3 : ∀ (nodes : List Node) (edges : List Edge) (t : Node),
    t ∈ nonMemberNodes nodes →
    t.type = "transform" →
    t.data.type ≠ some ("workflow") →
    (((transformIssuesOf nodes edges).any
        (fun i => i.violation == "no-inputs" && i.nodeId == t.id)) = true ↔
      (edges.filter (fun e => e.target == t.id && e.edgeType != some ("contains"))).length = 0) ∧
    (((transformIssuesOf nodes edges).any
        (fun i => i.violation == "no-outputs" && i.nodeId == t.id)) = true ↔
      (edges.filter (fun e => e.source == t.id && e.edgeType != some ("contains"))).length = 0) := by
  intro nodes edges t hmem h2 h3
  have htc : transformCandidate t = true := transformCandidate_true t h2 h3
  have htm : t ∈ (nonMemberNodes nodes).filter transformCandidate :=
    List.mem_filter.mpr ⟨hmem, htc⟩
  constructor
  · constructor
    · intro hany
      obtain ⟨i, hi, hp⟩ := List.any_eq_true.mp hany
      obtain ⟨u, _, hbody⟩ := List.mem_flatMap.mp hi
      rcases (transformBody_mem_iff edges u i).mp hbody with ⟨hlen, rfl⟩ | ⟨_, rfl⟩
      · have hid : u.id = t.id := by simpa using hp
        rw [← hid]
        exact hlen
      · simp at hp
    · intro hlen
      refine List.any_eq_true.mpr ⟨⟨"no-inputs", t.id, t.data.label.getD ("Untitled"),
        t.data.type.getD ("formula"), severity ("no-inputs")⟩, ?_, by simp⟩
      exact List.mem_flatMap.mpr ⟨t, htm, (transformBody_mem_iff edges t _).mpr (Or.inl ⟨hlen, rfl⟩)⟩
  · constructor
    · intro hany
      obtain ⟨i, hi, hp⟩ := List.any_eq_true.mp hany
      obtain ⟨u, _, hbody⟩ := List.mem_flatMap.mp hi
      rcases (transformBody_mem_iff edges u i).mp hbody with ⟨_, rfl⟩ | ⟨hlen, rfl⟩
      · simp at hp
      · have hid : u.id = t.id := by simpa using hp
        rw [← hid]
        exact hlen
    · intro hlen
      refine List.any_eq_true.mpr ⟨⟨"no-outputs", t.id, t.data.label.getD ("Untitled"),
        t.data.type.getD ("formula"), severity ("no-outputs")⟩, ?_, by simp⟩
      exact List.mem_flatMap.mpr ⟨t, htm, (transformBody_mem_iff edges t _).mpr (Or.inr ⟨hlen, rfl⟩)⟩

def c3t : Node := ⟨"t0", "transform", ⟨some ("F"), some ("formula"), none, none, none, none, none⟩⟩

/-- Witness for C3: a formula transform with no edges at all satisfies
both iffs (and in particular carries both issues simultaneously). -/
theorem claim_C3_witness :
    (((transformIssuesOf [c3t] []).any
        (fun i => i.violation == "no-inputs" && i.nodeId == c3t.id)) = true ↔
      (([] : List Edge).filter
        (fun e => e.target == c3t.id && e.edgeType != some ("contains"))).length = 0) ∧
    (((transformIssuesOf [c3t] []).any
        (fun i => i.violation == "no-outputs" && i.nodeId == c3t.id)) = true ↔
      (([] : List Edge).filter
        (fun e => e.source == c3t.id && e.edgeType != some ("contains"))).length = 0) :=
  claim_C3 [c3t] [] c3t (by decide) rfl (by decide)

/-- Edges that are not `derives-from` / `transforms` never change the
cycle detector's adjacency. -/
theorem buildAdjacency_filter (nodes : List Node) (edges : List Edge) :
    buildAdjacency nodes (edges.filter isComputationEdge) = buildAdjacency nodes edges := by
  unfold buildAdjacency
  generalize initAdjacency nodes = m
  induction edges generalizing m with
  | nil => rfl
  | cons e es ih =>
    by_cases he : isComputationEdge e = true
    · rw [List.filter_cons_of_pos he]
      simp only [List.foldl_cons, he, if_true]
      exact ih _
    · rw [List.filter_cons_of_neg (by simpa using he)]
      simp only [List.foldl_cons]
      rw [if_neg he]
      exact ih _

/-- The cycle detector is invariant under discarding all non-computation
edges: `flows-to`, `validates`, `contains` (and untyped) edges never
contribute to a reported cycle. -/
theorem detect_edges_filter (nodes : List Node) (edges : List Edge) :
    detectCircularDependencies nodes edges =
      detectCircularDependencies nodes (edges.filter isComputationEdge) := by
  simp only [detectCircularDependencies]
  rw [buildAdjacency_filter, List.filter_filter]
  simp only [Bool.and_self]

def c4A : Node := ⟨"idA", "datapoint", ⟨some ("A"), some ("string"), some ("inferred"), none, none, none, none⟩⟩

def c4B : Node := ⟨"idB", "datapoint", ⟨some ("B"), some ("string"), some ("inferred"), none, none, none, none⟩⟩

def c4e1 : Edge := ⟨"e1", "idA", "idB", some ("derives-from")⟩

def c4e2 : Edge := ⟨"e2", "idB", "idA", some ("derives-from")⟩

/-- C4: the cycle detector's adjacency is built only from `derives-from`
and `transforms` edges (the report is unchanged when every other edge is
removed), and on the two-edge graph A `derives-from` B, B `derives-from`
A the report has exactly one circular-dependency issue with label set
A,B whichever node order (hence DFS start) is used. -/
theorem claim_C4 :
    (∀ (nodes : List Node) (edges : List Edge),
      detectCircularDependencies nodes edges =
        detectCircularDependencies nodes (edges.filter isComputationEdge)) ∧
    ((circularIssuesOf [c4A, c4B] [c4e1, c4e2]).length = 1 ∧
      (circularIssuesOf [c4A, c4B] [c4e1, c4e2]).map (fun i => i.labels.toFinset) = [{"A", "B"}]) ∧
    ((circularIssuesOf [c4B, c4A] [c4e1, c4e2]).length = 1 ∧
      (circularIssuesOf [c4B, c4A] [c4e1, c4e2]).map (fun i => i.labels.toFinset) = [{"A", "B"}]) :=
  ⟨detect_edges_filter, by decide, by decide⟩

/-- C5: the type-reconciliation check processes each `retrieved`
datapoint and each of its incoming table edges independently (first
conjunct), and for one such edge, with the matching column found by the
case-insensitive trimmed label comparison: if both types are concrete
(neither `tbd`) and differ, exactly one type-mismatch issue naming that
datapoint and that column is emitted for the edge; if the types agree or
either side is `tbd`, none is. -/
theorem claim_C5 :
    (∀ (nodes : List Node) (edges : List Edge),
      validateTableDataPointTypes nodes edges =
        (nodes.filter (fun n => n.type == "datapoint" && n.data.source == some ("retrieved"))).flatMap
          (fun dp => (dpTableEdges nodes edges dp).flatMap (mismatchForEdge nodes dp))) ∧
    (∀ (nodes : List Node) (dp : Node) (e : Edge) (table : Node) (col : Column) (dt : String),
      (nodes.filter (fun n => n.type == "table")).find? (fun t => t.id == e.source) = some table →
      (table.data.columns.getD []).find?
        (fun c => jsTrim (jsToLower c.name) == jsTrim (jsToLower (dp.data.label.getD ("")))) = some col →
      dp.data.type = some dt →
      ((col.type ≠ dt → dt ≠ "tbd" → col.type ≠ "tbd" →
         mismatchForEdge nodes dp e =
           [⟨"type-mismatch", dp.id, dp.data.label.getD ("Untitled"), dt, table.id,
             table.data.label.getD ("Untitled"), col.name, col.type, severity ("type-mismatch")⟩]) ∧
       (col.type = dt ∨ dt = "tbd" ∨ col.type = "tbd" →
         mismatchForEdge nodes dp e = []))) := by
  refine ⟨fun nodes edges => rfl, ?_⟩
  intro nodes dp e table col dt h1 h2 h3
  have hbody : mismatchForEdge nodes dp e =
      (if (some col.type != dp.data.type && dp.data.type != some ("tbd") && col.type != "tbd") = true then
        [⟨"type-mismatch", dp.id, dp.data.label.getD ("Untitled"), dp.data.type.getD ("unknown"),
          table.id, table.data.label.getD ("Untitled"), col.name, col.type, severity ("type-mismatch")⟩]
      else []) := by
    unfold mismatchForEdge
    rw [h1]
    dsimp only
    rw [h2]
  constructor
  · intro hne1 hne2 hne3
    have hc : (some col.type != dp.data.type && dp.data.type != some ("tbd") && col.type != "tbd") = true := by
      simp [h3, bne_iff_ne]
      exact ⟨⟨hne1, hne2⟩, hne3⟩
    rw [hbody, hc]
    simp [h3]
  · intro hd
    have hc : (some col.type != dp.data.type && dp.data.type != some ("tbd") && col.type != "tbd") = false := by
      rcases hd with h | h | h <;> simp [h3, h]
    rw [hbody, hc]
    rfl

def c5table : Node := ⟨"t", "table",
  ⟨some ("Users"), none, none, none, none, some [⟨"age", "number"⟩], none⟩⟩

def c5dp : Node := ⟨"da", "datapoint",
  ⟨some ("Age"), some ("string"), some ("retrieved"), none, none, none, none⟩⟩

def c5edge : Edge := ⟨"ea", "t", "da", some ("flows-to")⟩

/-- Witness for C5: the spec's example (column age:number feeding a
retrieved datapoint Age:string) yields exactly one type-mismatch issue
naming both sides. -/
theorem claim_C5_witness :
    mismatchForEdge [c5table, c5dp] c5dp c5edge =
      [⟨"type-mismatch", c5dp.id, c5dp.data.label.getD ("Untitled"), "string", c5table.id,
        c5table.data.label.getD ("Untitled"), "age", "number", severity ("type-mismatch")⟩] :=
  (claim_C5.2 [c5table, c5dp] c5dp c5edge c5table ⟨"age", "number"⟩ "string"
    (by decide) (by decide) (by decide)).1 (by decide) (by decide) (by decide)

/-- Dangling-member issues carry the workflow node's id. -/
theorem memberDangling_nodeId (ids : List String) (n : Node) (lab : Option String)
    (m : WorkflowMember) (i : WorkflowIssue) (h : i ∈ memberDangling ids n lab m) :
    i.nodeId = n.id := by
  unfold memberDangling at h
  split at h
  · split at h
    · simp only [List.mem_singleton] at h; subst h; rfl
    · cases h
  · cases h

/-- Nested-workflow issues carry the workflow node's id. -/
theorem memberNested_nodeId (nodes : List Node) (n : Node) (lab : Option String)
    (m : WorkflowMember) (i : WorkflowIssue) (h : i ∈ memberNested nodes n lab m) :
    i.nodeId = n.id := by
  unfold memberNested at h
  split at h
  · split at h
    · cases h
    · split at h
      · split at h
        · simp only [List.mem_singleton] at h; subst h; rfl
        · cases h
      · cases h
  · cases h

/-- Every issue the workflow body emits names the examined node. -/
theorem workflowBody_nodeId (nodes : List Node) (edges : List Edge) (n : Node)
    (i : WorkflowIssue) (h : i ∈ workflowBody nodes edges n) : i.nodeId = n.id := by
  unfold workflowBody at h
  split at h
  · cases h
  · split at h
    · cases h
    · split at h
      · simp only [List.mem_singleton] at h; subst h; rfl
      · split at h
        · simp only [List.mem_singleton] at h; subst h; rfl
        · rcases List.mem_append.mp h with h1 | h2
          · rcases List.mem_append.mp h1 with h3 | h4
            · rcases List.mem_append.mp h3 with h5 | h6
              · split at h5
                · simp only [List.mem_singleton] at h5; subst h5; rfl
                · cases h5
              · split at h6
                · simp only [List.mem_singleton] at h6; subst h6; rfl
                · cases h6
            · obtain ⟨m, _, hm⟩ := List.mem_flatMap.mp h4
              exact memberDangling_nodeId _ _ _ _ _ hm
          · obtain ⟨m, _, hm⟩ := List.mem_flatMap.mp h2
            exact memberNested_nodeId _ _ _ _ _ hm

/-- The workflow issues reported for one node are exactly its body's
output (the workflow check receives the full node list). -/
theorem workflowIssues_for_node (nodes : List Node) (edges : List Edge) (n : Node)
    (hnd : (nodes.map Node.id).Nodup) (hmem : n ∈ nodes) :
    (validateWorkflows nodes edges).filter (fun i => i.nodeId == n.id) =
      workflowBody nodes edges n := by
  unfold validateWorkflows
  exact filter_key_flatMap _ (fun i => i.nodeId) Node.id
    (fun a b hb => workflowBody_nodeId nodes edges a b hb) nodes hnd n hmem

/-- Workflow body on an absent or empty member list: only the
empty-workflow issue (the `continue` short-circuits everything else). -/
theorem workflowBody_empty_members (nodes : List Node) (edges : List Edge) (n : Node)
    (h2 : n.type = "transform") (h3 : n.data.type = some ("workflow"))
    (hm : n.data.members = none ∨ n.data.members = some []) :
    workflowBody nodes edges n =
      [⟨"empty-workflow", n.id, n.data.label, none, severity ("empty-workflow")⟩] := by
  rcases hm with hm | hm <;> simp [workflowBody, h2, h3, hm]

/-- Workflow body on a single member with a non-empty, unresolvable
`transformId`: one insufficient-members issue and one dangling-member
issue (plus possibly the unrelated no-outputs issue). -/
theorem workflowBody_single_dangling (nodes : List Node) (edges : List Edge) (n : Node)
    (m : WorkflowMember) (t : String)
    (h2 : n.type = "transform") (h3 : n.data.type = some ("workflow"))
    (hm : n.data.members = some [m]) (hmt : m.transformId = some t) (ht : t ≠ "")
    (hc : ((nodes.map Node.id).contains t) = false) :
    (workflowBody nodes edges n).countP
        (fun i => i.violation == "insufficient-workflow-members") = 1 ∧
    (workflowBody nodes edges n).countP
        (fun i => i.violation == "dangling-member-reference") = 1 := by
  have hdang : memberDangling (nodes.map (fun x => x.id)) n n.data.label m =
      [⟨"dangling-member-reference", n.id, n.data.label,
        some ("Member \"" ++ m.name ++ "\" references missing transform " ++ t),
        severity ("dangling-member-reference")⟩] := by
    unfold memberDangling
    rw [hmt]
    dsimp only
    have hcond : (t != "" && !((nodes.map (fun x => x.id)).contains t)) = true := by
      simp only [Bool.and_eq_true, bne_iff_ne, Bool.not_eq_true']
      exact ⟨ht, by simpa using hc⟩
    rw [hcond]
    rfl
  have hnest : memberNested nodes n n.data.label m = [] := by
    unfold memberNested
    rw [hmt]
    dsimp only
    have htt : (t == "") = false := by simp [ht]
    rw [htt]
    have hfind : nodes.find? (fun mn => mn.id == t) = none := by
      refine List.find?_eq_none.mpr (fun x hx => ?_)
      intro hxe
      have hxid : x.id = t := by simpa using hxe
      have : ((nodes.map Node.id).contains t) = true :=
        List.elem_iff.mpr (hxid ▸ List.mem_map_of_mem Node.id hx)
      rw [this] at hc
      cases hc
    rw [hfind]
    rfl
  have hbody : workflowBody nodes edges n =
      [⟨"insufficient-workflow-members", n.id, n.data.label,
        some ("Workflow has only " ++ toString (1 : Nat) ++ " member (need at least 2)"),
        severity ("insufficient-workflow-members")⟩] ++
      (if ((edges.filter (fun e => e.source == n.id)).length == 0) = true then
        [⟨"workflow-no-outputs", n.id, n.data.label, some ("Workflow has no output connections"),
          severity ("workflow-no-outputs")⟩] else []) ++
      memberDangling (nodes.map (fun x => x.id)) n n.data.label m ++
      memberNested nodes n n.data.label m := by
    unfold workflowBody
    rw [if_neg (show ¬((n.type != "transform") = true) by simp [h2]),
        if_neg (show ¬((n.data.type != some ("workflow")) = true) by simp [h3]),
        hm]
    dsimp only
    rw [if_neg (show ¬(([m].length == 0) = true) by simp),
        if_pos (show [m].length < 2 by simp)]
    simp only [List.flatMap_cons, List.flatMap_nil, List.append_nil, List.append_assoc]
    rfl
  rw [hbody, hdang, hnest]
  by_cases ho : ((edges.filter (fun e => e.source == n.id)).length == 0) = true <;>
    simp [ho, List.countP_append, List.countP_cons]

def c6w : Node := ⟨"w", "transform",
  ⟨some ("W"), some ("workflow"), none, none, none, none, some [⟨"step", some ("")⟩]⟩⟩

/-- Counterexample to C6 as stated: a workflow with exactly one member
whose `transformId` is the empty string (which resolves to no node id)
yields the insufficient-members issue but no dangling-member-reference
issue, because the source's truthiness guard `if (m.transformId)` skips
an empty-string id. -/
theorem claim_C6_counterexample :
    c6w.data.members = some [⟨"step", some ("")⟩] ∧
    (([c6w].map Node.id).contains ("")) = false ∧
    ((validateWorkflows [c6w] []).filter
      (fun i => i.violation == "insufficient-workflow-members")).length = 1 ∧
    ((validateWorkflows [c6w] []).filter
      (fun i => i.violation == "dangling-member-reference")).length = 0 := by
  decide

/-- C6 (amended): for a workflow-typed transform, absent or empty
members give exactly one empty-workflow issue and no other workflow
issue for that node; and a workflow with exactly one member whose
`transformId` is a non-empty string resolving to no node id gets both an
insufficient-workflow-members issue and a dangling-member-reference
issue simultaneously. -/
theorem claim_C6 :
    (∀ (nodes : List Node) (edges : List Edge) (n : Node),
      (nodes.map Node.id).Nodup → n ∈ nodes → n.type = "transform" →
      n.data.type = some ("workflow") →
      (n.data.members = none ∨ n.data.members = some []) →
      (validateWorkflows nodes edges).filter (fun i => i.nodeId == n.id) =
        [⟨"empty-workflow", n.id, n.data.label, none, severity ("empty-workflow")⟩]) ∧
    (∀ (nodes : List Node) (edges : List Edge) (n : Node) (m : WorkflowMember) (t : String),
      (nodes.map Node.id).Nodup → n ∈ nodes → n.type = "transform" →
      n.data.type = some ("workflow") →
      n.data.members = some [m] → m.transformId = some t → t ≠ "" →
      ((nodes.map Node.id).contains t) = false →
      ((validateWorkflows nodes edges).filter (fun i => i.nodeId == n.id)).countP
          (fun i => i.violation == "insufficient-workflow-members") = 1 ∧
      ((validateWorkflows nodes edges).filter (fun i => i.nodeId == n.id)).countP
          (fun i => i.violation == "dangling-member-reference") = 1) := by
  constructor
  · intro nodes edges n hnd hmem h2 h3 hm
    rw [workflowIssues_for_node nodes edges n hnd hmem]
    exact workflowBody_empty_members nodes edges n h2 h3 hm
  · intro nodes edges n m t hnd hmem h2 h3 hm hmt ht hc
    rw [workflowIssues_for_node nodes edges n hnd hmem]
    exact workflowBody_single_dangling nodes edges n m t h2 h3 hm hmt ht hc

def c6ghost : Node := ⟨"w", "transform",
  ⟨some ("W"), some ("workflow"), none, none, none, none, some [⟨"step", some ("ghost")⟩]⟩⟩

/-- Witness for C6: a workflow with a single member pointing at the
nonexistent id "ghost" gets both issues. -/
theorem claim_C6_witness :
    ((validateWorkflows [c6ghost] []).filter (fun i => i.nodeId == c6ghost.id)).countP
        (fun i => i.violation == "insufficient-workflow-members") = 1 ∧
    ((validateWorkflows [c6ghost] []).filter (fun i => i.nodeId == c6ghost.id)).countP
        (fun i => i.violation == "dangling-member-reference") = 1 :=
  claim_C6.2 [c6ghost] [] c6ghost ⟨"step", some ("ghost")⟩ "ghost"
    (by decide) (by decide) rfl rfl rfl rfl (by decide) (by decide)

/-- Every issue the component body emits names the examined component. -/
theorem componentBody_nodeId (ns : List Node) (es : List Edge) (c : Node)
    (i : ComponentReferenceIssue) (h : i ∈ componentBody ns es c) : i.nodeId = c.id := by
  unfold componentBody at h
  dsimp only at h
  rcases List.mem_append.mp h with h1 | h2
  · rcases List.mem_append.mp h1 with h3 | h4
    · split at h3
      · simp only [List.mem_singleton] at h3; subst h3; rfl
      · cases h3
    · split at h4
      · simp only [List.mem_singleton] at h4; subst h4; rfl
      · cases h4
  · split at h2
    · cases h2
    · simp only [List.mem_singleton] at h2; subst h2; rfl

/-- The component-reference issues reported for one non-member component
are exactly its body's output. -/
theorem componentIssues_for_node (nodes : List Node) (edges : List Edge) (c : Node)
    (hnd : (nodes.map Node.id).Nodup) (hmem : c ∈ nonMemberNodes nodes)
    (hc : c.type = "component") :
    (componentIssuesOf nodes edges).filter (fun i => i.nodeId == c.id) =
      componentBody (nonMemberNodes nodes) edges c := by
  have hcmem : c ∈ (nonMemberNodes nodes).filter (fun n => n.type == "component") :=
    List.mem_filter.mpr ⟨hmem, by simp [hc]⟩
  unfold componentIssuesOf validateComponentReferences
  exact filter_key_flatMap _ (fun i => i.nodeId) Node.id
    (fun a b hb => componentBody_nodeId _ _ a b hb) _
    (filter_ids_nodup _ _ (nonMember_ids_nodup nodes hnd)) c hcmem

/-- The validator's resolution test, unfolded to its logical meaning:
an entry resolves when it is the id of a listed node or the non-empty
label of a listed node (`filter(Boolean)` drops empty labels). -/
theorem refResolves_iff (ns : List Node) (r : String) :
    refResolves (ns.map (fun n => n.id)) (nodeLabels ns) r = true ↔
      (r ∈ ns.map Node.id ∨ ∃ n ∈ ns, n.data.label = some r ∧ r ≠ "") := by
  unfold refResolves
  rw [Bool.or_eq_true]
  constructor
  · rintro (h | h)
    · exact Or.inl (List.elem_iff.mp h)
    · refine Or.inr ?_
      have hr : r ∈ nodeLabels ns := List.elem_iff.mp h
      unfold nodeLabels at hr
      obtain ⟨o, ho, hgo⟩ := List.mem_filterMap.mp hr
      obtain ⟨n, hn, hno⟩ := List.mem_map.mp ho
      refine ⟨n, hn, ?_⟩
      cases o with
      | none => cases hgo
      | some l =>
        dsimp only at hgo
        by_cases hl : l = ""
        · rw [if_pos (by simp [hl])] at hgo
          cases hgo
        · rw [if_neg (by simp [hl])] at hgo
          obtain rfl : l = r := by injection hgo
          exact ⟨by simpa using hno, hl⟩
  · rintro (h | ⟨n, hn, hlab, hne⟩)
    · exact Or.inl (List.elem_iff.mpr h)
    · refine Or.inr (List.elem_iff.mpr ?_)
      unfold nodeLabels
      refine List.mem_filterMap.mpr ⟨some r, List.mem_map.mpr ⟨n, hn, by simp [hlab]⟩, ?_⟩
      simp [hne]

/-- Capture entries of a component are listed in its
invalid-capture-reference issue exactly when the validator's resolution
test fails for them. -/
theorem componentBody_capture_iff (ns : List Node) (es : List Edge) (c : Node) (r : String)
    (hr : r ∈ c.data.captures.getD []) :
    (∃ i ∈ componentBody ns es c,
      i.violation = "invalid-capture-reference" ∧ r ∈ i.invalidRefs) ↔
      refResolves (ns.map (fun n => n.id)) (nodeLabels ns) r = false := by
  unfold componentBody
  dsimp only
  constructor
  · rintro ⟨i, hi, hviol, href⟩
    rcases List.mem_append.mp hi with h1 | h2
    · rcases List.mem_append.mp h1 with h3 | h4
      · split at h3
        · simp only [List.mem_singleton] at h3
          subst h3
          simp only at href
          have := List.mem_filter.mp href
          simpa using this.2
        · cases h3
      · split at h4
        · simp only [List.mem_singleton] at h4; subst h4; simp at hviol
        · cases h4
    · split at h2
      · cases h2
      · simp only [List.mem_singleton] at h2; subst h2; simp at hviol
  · intro hres
    have hmem : r ∈ (c.data.captures.getD []).filter
        (fun x => !(refResolves (ns.map (fun n => n.id)) (nodeLabels ns) x)) :=
      List.mem_filter.mpr ⟨hr, by simp [hres]⟩
    have hlen : 0 < ((c.data.captures.getD []).filter
        (fun x => !(refResolves (ns.map (fun n => n.id)) (nodeLabels ns) x))).length :=
      List.length_pos.mpr (List.ne_nil_of_mem hmem)
    refine ⟨⟨"invalid-capture-reference", c.id, c.data.label.getD ("Untitled"),
      (c.data.captures.getD []).filter
        (fun x => !(refResolves (ns.map (fun n => n.id)) (nodeLabels ns) x)),
      severity ("invalid-capture-reference")⟩, ?_, rfl, hmem⟩
    refine List.mem_append.mpr (Or.inl (List.mem_append.mpr (Or.inl ?_)))
    rw [if_pos hlen]
    exact List.mem_singleton.mpr rfl

/-- Display entries: same characterization as captures. -/
theorem componentBody_display_iff (ns : List Node) (es : List Edge) (c : Node) (r : String)
    (hr : r ∈ c.data.displays.getD []) :
    (∃ i ∈ componentBody ns es c,
      i.violation = "invalid-display-reference" ∧ r ∈ i.invalidRefs) ↔
      refResolves (ns.map (fun n => n.id)) (nodeLabels ns) r = false := by
  unfold componentBody
  dsimp only
  constructor
  · rintro ⟨i, hi, hviol, href⟩
    rcases List.mem_append.mp hi with h1 | h2
    · rcases List.mem_append.mp h1 with h3 | h4
      · split at h3
        · simp only [List.mem_singleton] at h3; subst h3; simp at hviol
        · cases h3
      · split at h4
        · simp only [List.mem_singleton] at h4
          subst h4
          simp only at href
          have := List.mem_filter.mp href
          simpa using this.2
        · cases h4
    · split at h2
      · cases h2
      · simp only [List.mem_singleton] at h2; subst h2; simp at hviol
  · intro hres
    have hmem : r ∈ (c.data.displays.getD []).filter
        (fun x => !(refResolves (ns.map (fun n => n.id)) (nodeLabels ns) x)) :=
      List.mem_filter.mpr ⟨hr, by simp [hres]⟩
    have hlen : 0 < ((c.data.displays.getD []).filter
        (fun x => !(refResolves (ns.map (fun n => n.id)) (nodeLabels ns) x))).length :=
      List.length_pos.mpr (List.ne_nil_of_mem hmem)
    refine ⟨⟨"invalid-display-reference", c.id, c.data.label.getD ("Untitled"),
      (c.data.displays.getD []).filter
        (fun x => !(refResolves (ns.map (fun n => n.id)) (nodeLabels ns) x)),
      severity ("invalid-display-reference")⟩, ?_, rfl, hmem⟩
    refine List.mem_append.mpr (Or.inl (List.mem_append.mpr (Or.inr ?_)))
    rw [if_pos hlen]
    exact List.mem_singleton.mpr rfl

def c7w : Node := ⟨"w", "transform",
  ⟨some ("W"), some ("workflow"), none, none, none, none, some [⟨"s", some ("m")⟩]⟩⟩

def c7m : Node := ⟨"m", "transform",
  ⟨some ("M"), some ("formula"), none, none, none, none, none⟩⟩

def c7c : Node := ⟨"c", "component",
  ⟨some ("C"), none, none, some ["m"], some [], none, none⟩⟩

/-- Counterexample to C7 as stated: the capture entry "m" is the id of
an existing node (the workflow member), yet the handler resolves
component references against the member-filtered node pool, so the entry
is reported as an invalid-capture-reference. -/
theorem claim_C7_counterexample :
    c7m ∈ [c7w, c7m, c7c] ∧
    "m" ∈ [c7w, c7m, c7c].map Node.id ∧
    ((componentIssuesOf [c7w, c7m, c7c] []).filter
      (fun i => i.violation == "invalid-capture-reference")).map (fun i => i.invalidRefs) =
        [["m"]] := by
  decide

/-- C7 (amended): for a non-member component, an entry of `captures`
(resp. `displays`) is listed in an invalid-capture-reference (resp.
invalid-display-reference) issue iff it is neither the id of a node in
the member-filtered pool nor the non-empty label of such a node; the
workflow members are removed from the resolution pool too, so an entry
referencing a member node is reported. -/
theorem claim_C7 :
    ∀ (nodes : List Node) (edges : List Edge) (c : Node) (r : String),
      (nodes.map Node.id).Nodup →
      c ∈ nonMemberNodes nodes →
      c.type = "component" →
      (r ∈ c.data.captures.getD [] →
        ((∃ i ∈ (componentIssuesOf nodes edges).filter (fun i => i.nodeId == c.id),
            i.violation = "invalid-capture-reference" ∧ r ∈ i.invalidRefs) ↔
          ¬(r ∈ (nonMemberNodes nodes).map Node.id ∨
             ∃ n ∈ nonMemberNodes nodes, n.data.label = some r ∧ r ≠ ""))) ∧
      (r ∈ c.data.displays.getD [] →
        ((∃ i ∈ (componentIssuesOf nodes edges).filter (fun i => i.nodeId == c.id),
            i.violation = "invalid-display-reference" ∧ r ∈ i.invalidRefs) ↔
          ¬(r ∈ (nonMemberNodes nodes).map Node.id ∨
             ∃ n ∈ nonMemberNodes nodes, n.data.label = some r ∧ r ≠ ""))) := by
  intro nodes edges c r hnd hmem hc
  have hk := componentIssues_for_node nodes edges c hnd hmem hc
  have hbool : ∀ rr : String,
      (refResolves ((nonMemberNodes nodes).map (fun n => n.id)) (nodeLabels (nonMemberNodes nodes)) rr = false) ↔
        ¬(rr ∈ (nonMemberNodes nodes).map Node.id ∨
           ∃ n ∈ nonMemberNodes nodes, n.data.label = some rr ∧ rr ≠ "") := by
    intro rr
    rw [← refResolves_iff (nonMemberNodes nodes) rr]
    constructor
    · intro hh hcon
      rw [hh] at hcon
      cases hcon
    · intro hh
      cases hhh : refResolves ((nonMemberNodes nodes).map (fun n => n.id))
          (nodeLabels (nonMemberNodes nodes)) rr
      · rfl
      · exact absurd hhh hh
  constructor
  · intro hr
    rw [hk]
    exact (componentBody_capture_iff _ edges c r hr).trans (hbool r)
  · intro hr
    rw [hk]
    exact (componentBody_display_iff _ edges c r hr).trans (hbool r)

def c7dp : Node := ⟨"d", "datapoint",
  ⟨some ("D"), some ("string"), some ("captured"), none, none, none, none⟩⟩

def c7c2 : Node := ⟨"c", "component",
  ⟨some ("C"), none, none, some ["ghost", "D"], some [], none, none⟩⟩

/-- Witness for C7: with a datapoint labeled D in the pool, the capture
entry "ghost" resolves to nothing and is reported. -/
theorem claim_C7_witness :
    (∃ i ∈ (componentIssuesOf [c7dp, c7c2] []).filter (fun i => i.nodeId == c7c2.id),
        i.violation = "invalid-capture-reference" ∧ "ghost" ∈ i.invalidRefs) ↔
      ¬("ghost" ∈ (nonMemberNodes [c7dp, c7c2]).map Node.id ∨
         ∃ n ∈ nonMemberNodes [c7dp, c7c2], n.data.label = some ("ghost") ∧ "ghost" ≠ "") :=
  ((claim_C7 [c7dp, c7c2] [] c7c2 ("ghost") (by decide) (by decide) (by decide)).1 (by decide))

-- ─── Duplicate-label grouping lemmas ─────────────────────────────

/-- Combined skip test of the grouping loop. -/
def dupEligible (n : Node) : Bool :=
  !(n.type == "image" || n.type == "screen") && !(normLabel n == "")

/-- Ids recorded under one key of the grouping map. -/
def groupIds (groups : List (String × LabelGroup)) (k : String) : List String :=
  ((groups.find? (fun p => p.1 == k)).map (fun p => p.2.ids)).getD []

/-- Keys of the grouping map, in insertion order. -/
def groupKeys (groups : List (String × LabelGroup)) : List String :=
  groups.map (fun p => p.1)

theorem find?_cons_pos {α : Type} (p : α → Bool) (a : α) (l : List α) (h : p a = true) :
    (a :: l).find? p = some a := by
  simp [List.find?_cons, h]

theorem find?_cons_neg {α : Type} (p : α → Bool) (a : α) (l : List α) (h : p a = false) :
    (a :: l).find? p = l.find? p := by
  simp [List.find?_cons, h]

theorem filter_cons_pos {α : Type} (p : α → Bool) (a : α) (l : List α) (h : p a = true) :
    (a :: l).filter p = a :: l.filter p := by
  simp [List.filter_cons, h]

theorem filter_cons_neg {α : Type} (p : α → Bool) (a : α) (l : List α) (h : p a = false) :
    (a :: l).filter p = l.filter p := by
  simp [List.filter_cons, h]

theorem find?_replace_self (acc : List (String × LabelGroup)) (k : String) (g : LabelGroup)
    (h : ∃ p ∈ acc, (p.1 == k) = true) :
    (acc.map (fun q => if q.1 == k then (k, g) else q)).find? (fun p => p.1 == k) =
      some (k, g) := by
  induction acc with
  | nil => obtain ⟨p, hp, _⟩ := h; cases hp
  | cons a as ih =>
    by_cases ha : (a.1 == k) = true
    · simp only [List.map_cons, if_pos ha]
      exact find?_cons_pos _ _ _ (by simp)
    · simp only [List.map_cons, if_neg ha]
      rw [find?_cons_neg (fun p => p.1 == k) a _ (by simpa using ha)]
      refine ih ?_
      obtain ⟨p, hp, hpk⟩ := h
      rcases List.mem_cons.mp hp with rfl | hmem
      · exact absurd hpk ha
      · exact ⟨p, hmem, hpk⟩

theorem find?_replace_other (acc : List (String × LabelGroup)) (kn k : String) (g : LabelGroup)
    (hk : kn ≠ k) :
    (acc.map (fun q => if q.1 == kn then (kn, g) else q)).find? (fun p => p.1 == k) =
      acc.find? (fun p => p.1 == k) := by
  induction acc with
  | nil => rfl
  | cons a as ih =>
    by_cases ha : (a.1 == kn) = true
    · have hae : a.1 = kn := by simpa using ha
      have hak : (a.1 == k) = false := by simp [hae, hk]
      simp only [List.map_cons, if_pos ha]
      rw [find?_cons_neg (fun p => p.1 == k) (kn, g) _ (by simp [hk]),
          find?_cons_neg (fun p => p.1 == k) a as (by simpa using hak), ih]
    · simp only [List.map_cons, if_neg ha]
      by_cases hak : (a.1 == k) = true
      · rw [find?_cons_pos (fun p => p.1 == k) a _ hak, find?_cons_pos (fun p => p.1 == k) a as hak]
      · rw [find?_cons_neg (fun p => p.1 == k) a _ (by simpa using hak),
            find?_cons_neg (fun p => p.1 == k) a as (by simpa using hak), ih]

theorem groupIds_append_one (acc : List (String × LabelGroup)) (kn : String) (g : LabelGroup)
    (hf : acc.find? (fun p => p.1 == kn) = none) :
    groupIds (acc ++ [(kn, g)]) kn = g.ids := by
  unfold groupIds
  induction acc with
  | nil => simp
  | cons a as ih =>
    have ha : ((fun p => p.1 == kn) a) = false := by
      have := List.find?_eq_none.mp hf a (List.mem_cons_self a as)
      simpa using this
    rw [List.cons_append, find?_cons_neg (fun p => p.1 == kn) a _ (by simpa using ha)]
    refine ih ?_
    rw [find?_cons_neg (fun p => p.1 == kn) a as (by simpa using ha)] at hf
    exact hf

theorem groupIds_append_other (acc : List (String × LabelGroup)) (kn k : String) (g : LabelGroup)
    (hk : kn ≠ k) :
    groupIds (acc ++ [(kn, g)]) k = groupIds acc k := by
  unfold groupIds
  induction acc with
  | nil => simp [hk]
  | cons a as ih =>
    by_cases ha : (a.1 == k) = true
    · rw [List.cons_append, find?_cons_pos (fun p => p.1 == k) a _ ha,
          find?_cons_pos (fun p => p.1 == k) a as ha]
    · rw [List.cons_append, find?_cons_neg (fun p => p.1 == k) a _ (by simpa using ha),
          find?_cons_neg (fun p => p.1 == k) a as (by simpa using ha)]
      exact ih

/-- One grouping step: an eligible node appends its id to its key's
group; everything else is untouched. -/
theorem groupIds_dupFold (acc : List (String × LabelGroup)) (n : Node) (k : String) :
    groupIds (dupFold acc n) k =
      if (dupEligible n && (dupKey n == k)) = true then groupIds acc k ++ [n.id]
      else groupIds acc k := by
  unfold dupFold dupEligible
  by_cases h1 : (n.type == "image" || n.type == "screen") = true
  · rw [if_pos h1]
    simp [h1]
  · rw [if_neg h1]
    by_cases h2 : (normLabel n == "") = true
    · rw [if_pos h2]
      simp [h1, h2]
    · rw [if_neg h2]
      dsimp only
      by_cases hk : dupKey n = k
      · subst hk
        cases hf : acc.find? (fun p => p.1 == dupKey n) with
        | some p =>
          dsimp only
          have hself : ((acc.map (fun q => if q.1 == dupKey n then
              (dupKey n, (⟨p.2.ids ++ [n.id], p.2.type⟩ : LabelGroup)) else q)).find?
                (fun q => q.1 == dupKey n)) = some (dupKey n, ⟨p.2.ids ++ [n.id], p.2.type⟩) := by
            refine find?_replace_self acc (dupKey n) _ ⟨p, List.mem_of_find?_eq_some hf, ?_⟩
            have hps := List.find?_some hf
            simpa using hps
          unfold groupIds
          rw [hself, hf]
          simp [h1, h2]
        | none =>
          dsimp only
          have h3 := groupIds_append_one acc (dupKey n) ⟨[n.id], n.type⟩ hf
          rw [h3]
          unfold groupIds
          rw [hf]
          simp [h1, h2]
      · cases hf : acc.find? (fun p => p.1 == dupKey n) with
        | some p =>
          dsimp only
          have hother := find?_replace_other acc (dupKey n) k
            (⟨p.2.ids ++ [n.id], p.2.type⟩ : LabelGroup) hk
          unfold groupIds
          rw [hother]
          simp [hk]
        | none =>
          dsimp only
          rw [groupIds_append_other acc (dupKey n) k ⟨[n.id], n.type⟩ hk]
          simp [hk]

/-- The grouping fold records, under each key, exactly the ids of the
eligible nodes with that key, in traversal order. -/
theorem dupFold_groupIds (nodes : List Node) :
    ∀ (acc : List (String × LabelGroup)) (k : String),
      groupIds (nodes.foldl dupFold acc) k =
        groupIds acc k ++ (nodes.filter (fun n => dupEligible n && (dupKey n == k))).map Node.id := by
  induction nodes with
  | nil => intro acc k; simp
  | cons n ns ih =>
    intro acc k
    rw [List.foldl_cons, ih]
    by_cases h : (dupEligible n && (dupKey n == k)) = true
    · rw [filter_cons_pos (fun n => dupEligible n && (dupKey n == k)) n ns h,
          groupIds_dupFold, if_pos h]
      simp
    · rw [filter_cons_neg (fun n => dupEligible n && (dupKey n == k)) n ns (by simpa using h),
          groupIds_dupFold, if_neg h]

theorem keys_map_replace (acc : List (String × LabelGroup)) (kn : String) (g : LabelGroup) :
    groupKeys (acc.map (fun q => if q.1 == kn then (kn, g) else q)) = groupKeys acc := by
  unfold groupKeys
  induction acc with
  | nil => rfl
  | cons a as ih =>
    simp only [List.map_cons]
    by_cases ha : (a.1 == kn) = true
    · rw [if_pos ha]
      have hak : a.1 = kn := by simpa using ha
      simp [hak, ih]
      intro x b _
      split <;> simp_all
    · rw [if_neg ha]
      simp [ih]
      intro x b _
      split <;> simp_all

theorem not_mem_keys_of_find?_none (acc : List (String × LabelGroup)) (kn : String)
    (h : acc.find? (fun p => p.1 == kn) = none) : kn ∉ groupKeys acc := by
  intro hmem
  obtain ⟨p, hp, hpk⟩ := List.mem_map.mp hmem
  have := List.find?_eq_none.mp h p hp
  simp [hpk] at this

/-- One grouping step preserves key distinctness. -/
theorem dupFold_keys_nodup_step (acc : List (String × LabelGroup)) (n : Node)
    (h : (groupKeys acc).Nodup) : (groupKeys (dupFold acc n)).Nodup := by
  unfold dupFold
  by_cases h1 : (n.type == "image" || n.type == "screen") = true
  · rw [if_pos h1]; exact h
  · rw [if_neg h1]
    by_cases h2 : (normLabel n == "") = true
    · rw [if_pos h2]; exact h
    · rw [if_neg h2]
      dsimp only
      cases hf : acc.find? (fun p => p.1 == dupKey n) with
      | some p =>
        dsimp only
        rw [keys_map_replace]
        exact h
      | none =>
        dsimp only
        have hnm := not_mem_keys_of_find?_none acc (dupKey n) hf
        unfold groupKeys at h hnm ⊢
        rw [List.map_append]
        simp [List.nodup_append, h, hnm]

theorem dupFold_keys_nodup (nodes : List Node) :
    ∀ (acc : List (String × LabelGroup)),
      (groupKeys acc).Nodup → (groupKeys (nodes.foldl dupFold acc)).Nodup := by
  induction nodes with
  | nil => intro acc h; exact h
  | cons n ns ih =>
    intro acc h
    rw [List.foldl_cons]
    exact ih _ (dupFold_keys_nodup_step acc n h)

/-- In a key-distinct grouping map, looking an entry's key up returns
that entry. -/
theorem find?_self_of_keys_nodup (G : List (String × LabelGroup))
    (hG : (groupKeys G).Nodup) (p : String × LabelGroup) (hp : p ∈ G) :
    G.find? (fun q => q.1 == p.1) = some p := by
  induction G with
  | nil => cases hp
  | cons a as ih =>
    unfold groupKeys at hG
    rw [List.map_cons, List.nodup_cons] at hG
    rcases List.mem_cons.mp hp with rfl | hmem
    · exact find?_cons_pos _ _ _ (by simp)
    · have hmemk : p.1 ∈ as.map (fun q => q.1) := List.mem_map.mpr ⟨p, hmem, rfl⟩
      have hne : (a.1 == p.1) = false := by
        rw [beq_eq_false_iff_ne]
        intro hcontra
        refine hG.1 ?_
        rw [hcontra]
        exact hmemk
      rw [find?_cons_neg (fun q => q.1 == p.1) a as hne]
      exact ih hG.2 hmem

/-- With distinct ids, two listed nodes sharing an id are equal. -/
theorem eq_of_mem_id_nodup (ns : List Node) (h : (ns.map Node.id).Nodup) (u v : Node)
    (hu : u ∈ ns) (hv : v ∈ ns) (he : u.id = v.id) : u = v := by
  induction ns with
  | nil => cases hu
  | cons a as ih =>
    rw [List.map_cons, List.nodup_cons] at h
    rcases List.mem_cons.mp hu with rfl | hu' <;> rcases List.mem_cons.mp hv with rfl | hv'
    · rfl
    · exfalso
      have hv2 : v.id ∈ as.map Node.id := List.mem_map.mpr ⟨v, hv', rfl⟩
      rw [← he] at hv2
      exact h.1 hv2
    · exfalso
      have hu2 : u.id ∈ as.map Node.id := List.mem_map.mpr ⟨u, hu', rfl⟩
      rw [he] at hu2
      exact h.1 hu2
    · exact ih h.2 hu' hv'

/-- In a group map with distinct keys where each entry's id list is
determined by its key through `F`, and where no other listed key shares
`F k`, the emitted issues contain exactly one whose `nodeIds` is `F k`,
provided the `F k` group has at least two members. -/
theorem emit_countP_one (emit : (String × LabelGroup) → List DuplicateLabelIssue)
    (F : String → List String)
    (hemit : ∀ p, (emit p).map (fun i => i.nodeIds) =
      if p.2.ids.length < 2 then [] else [p.2.ids]) :
    ∀ (G : List (String × LabelGroup)) (k : String),
      (groupKeys G).Nodup →
      (∀ p ∈ G, p.2.ids = F p.1) →
      (∀ k' ∈ groupKeys G, k' ≠ k → F k' ≠ F k) →
      (∃ p ∈ G, p.1 = k) →
      2 ≤ (F k).length →
      (G.flatMap emit).countP (fun i => i.nodeIds == F k) = 1 := by
  have hcount : ∀ (k : String) (q : String × LabelGroup),
      (emit q).countP (fun i => i.nodeIds == F k) =
        if q.2.ids.length < 2 then 0 else (if (q.2.ids == F k) = true then 1 else 0) := by
    intro k q
    have hmapped : ((emit q).map (fun i => i.nodeIds)).countP (fun ids => ids == F k) =
        (emit q).countP (fun i => i.nodeIds == F k) := List.countP_map ..
    rw [← hmapped, hemit q]
    by_cases hql : q.2.ids.length < 2
    · rw [if_pos hql, if_pos hql]
      rfl
    · rw [if_neg hql, if_neg hql]
      by_cases hqe : (q.2.ids == F k) = true
      · rw [if_pos hqe]
        simp [hqe]
      · rw [if_neg hqe]
        simp [List.countP_cons]
        simpa using hqe
  intro G
  induction G with
  | nil =>
    intro k _ _ _ hex _
    obtain ⟨p, hp, _⟩ := hex
    cases hp
  | cons p G' ih =>
    intro k hnd hids hinj hex hlen
    have hndc : p.1 ∉ groupKeys G' ∧ (groupKeys G').Nodup := by
      unfold groupKeys at hnd ⊢
      rw [List.map_cons, List.nodup_cons] at hnd
      exact hnd
    rw [List.flatMap_cons, List.countP_append]
    by_cases hpk : p.1 = k
    · have hpids : p.2.ids = F k := by
        rw [hids p (List.mem_cons_self p G'), hpk]
      have h1 : (emit p).countP (fun i => i.nodeIds == F k) = 1 := by
        rw [hcount k p, hpids, if_neg (by omega), if_pos (by simp)]
      have h2 : (G'.flatMap emit).countP (fun i => i.nodeIds == F k) = 0 := by
        rw [List.countP_eq_zero]
        intro i hi
        obtain ⟨q, hq, hiq⟩ := List.mem_flatMap.mp hi
        have hqk : q.1 ≠ k := by
          intro hcontra
          refine hndc.1 ?_
          rw [hpk, ← hcontra]
          exact List.mem_map.mpr ⟨q, hq, rfl⟩
        have hFne : F q.1 ≠ F k :=
          hinj q.1 (List.mem_map.mpr ⟨q, List.mem_cons_of_mem p hq, rfl⟩) hqk
        have hqids : q.2.ids = F q.1 := hids q (List.mem_cons_of_mem p hq)
        have hmapi : i.nodeIds ∈ (emit q).map (fun i => i.nodeIds) :=
          List.mem_map_of_mem _ hiq
        rw [hemit q] at hmapi
        by_cases hql : q.2.ids.length < 2
        · rw [if_pos hql] at hmapi
          cases hmapi
        · rw [if_neg hql] at hmapi
          have hieq : i.nodeIds = q.2.ids := by simpa using hmapi
          simp [hieq, hqids, hFne]
      rw [h1, h2]
    · have h1 : (emit p).countP (fun i => i.nodeIds == F k) = 0 := by
        rw [hcount k p]
        by_cases hpl : p.2.ids.length < 2
        · rw [if_pos hpl]
        · have hpids : p.2.ids = F p.1 := hids p (List.mem_cons_self p G')
          have hFne : F p.1 ≠ F k :=
            hinj p.1 (List.mem_map.mpr ⟨p, List.mem_cons_self p G', rfl⟩) hpk
          rw [if_neg hpl, if_neg (by simp [hpids, hFne])]
      have hex' : ∃ q ∈ G', q.1 = k := by
        obtain ⟨p0, hp0, hp0k⟩ := hex
        rcases List.mem_cons.mp hp0 with rfl | hmem
        · exact absurd hp0k hpk
        · exact ⟨p0, hmem, hp0k⟩
      rw [h1, ih k hndc.2 (fun q hq => hids q (List.mem_cons_of_mem p hq))
        (fun k' hk' => hinj k' (List.mem_cons_of_mem p.1 hk')) hex' hlen]

theorem takeWhile_append_of_all {α : Type} (p : α → Bool) (xs ys : List α) (y : α)
    (hxs : ∀ x ∈ xs, p x = true) (hy : p y = false) :
    (xs ++ y :: ys).takeWhile p = xs ∧ (xs ++ y :: ys).dropWhile p = y :: ys := by
  induction xs with
  | nil => simp [List.takeWhile_cons, List.dropWhile_cons, hy]
  | cons x xs ih =>
    have hx := hxs x (List.mem_cons_self x xs)
    have ihr := ih (fun z hz => hxs z (List.mem_cons_of_mem x hz))
    simp [List.takeWhile_cons, List.dropWhile_cons, hx, ihr]

/-- Splitting the grouping key at its first colon is unambiguous when
the type part is colon-free. -/
theorem colon_key_inj (a b c d : String) (ha : ':' ∉ a.data) (hc : ':' ∉ c.data)
    (h : a ++ ":" ++ b = c ++ ":" ++ d) : a = c ∧ b = d := by
  have hdata : a.data ++ ':' :: b.data = c.data ++ ':' :: d.data := by
    have hd := congrArg String.data h
    simpa [String.data_append] using hd
  have hpa : ∀ x ∈ a.data, (fun ch => !(ch == ':')) x = true := by
    intro x hx
    simp only [Bool.not_eq_true']
    rw [beq_eq_false_iff_ne]
    intro hcontra
    exact ha (hcontra ▸ hx)
  have hpc : ∀ x ∈ c.data, (fun ch => !(ch == ':')) x = true := by
    intro x hx
    simp only [Bool.not_eq_true']
    rw [beq_eq_false_iff_ne]
    intro hcontra
    exact hc (hcontra ▸ hx)
  have h1 := takeWhile_append_of_all (fun ch => !(ch == ':')) a.data b.data ':' hpa (by simp)
  have h2 := takeWhile_append_of_all (fun ch => !(ch == ':')) c.data d.data ':' hpc (by simp)
  have h3 : a.data = c.data := by
    rw [← h1.1, hdata, h2.1]
  have h4 : ':' :: b.data = ':' :: d.data := by
    rw [← h1.2, hdata, h2.2]
  have h5 : b.data = d.data := by injection h4
  exact ⟨String.ext h3, String.ext h5⟩

/-- On colon-free types, matching the string key is matching the
(type, normalized label) pair. -/
theorem dupKey_eq_iff (n : Node) (t l : String)
    (hn : ':' ∉ n.type.data) (ht : ':' ∉ t.data) :
    (dupKey n == t ++ ":" ++ l) = (n.type == t && normLabel n == l) := by
  unfold dupKey
  by_cases h : n.type ++ ":" ++ normLabel n = t ++ ":" ++ l
  · obtain ⟨h1, h2⟩ := colon_key_inj _ _ _ _ hn ht h
    simp [h, h1, h2]
  · have hb : (n.type == t && normLabel n == l) = false := by
      by_cases e1 : n.type = t
      · by_cases e2 : normLabel n = l
        · exact absurd (by rw [e1, e2]) h
        · simp [e2]
      · simp [e1]
    simp [h, hb]

def c8e1 : Node := ⟨"n1", "datapoint", ⟨some ("Email"), some ("string"), none, none, none, none, none⟩⟩

def c8e2 : Node := ⟨"n2", "datapoint", ⟨some ("email"), some ("string"), none, none, none, none, none⟩⟩

def c8e3 : Node := ⟨"n3", "table", ⟨some ("email"), none, none, none, none, some [], none⟩⟩

def c8s1 : Node := ⟨"w1", "datapoint", ⟨some (" "), some ("string"), none, none, none, none, none⟩⟩

def c8s2 : Node := ⟨"w2", "datapoint", ⟨some (""), some ("string"), none, none, none, none, none⟩⟩

/-- Counterexample to C8 as stated: two same-type nodes whose labels
normalize to the empty string form a group of two, yet the check skips
empty normalized labels (`if (!label) continue`) and reports nothing. -/
theorem claim_C8_counterexample :
    2 ≤ ((nonMemberNodes [c8s1, c8s2]).filter
      (fun n => n.type == "datapoint" && normLabel n == "")).length ∧
    duplicateIssuesOf [c8s1, c8s2] = [] := by
  decide

/-- C8 (amended): the duplicate-label check groups non-excluded,
non-image/screen nodes by (type, trimmed-lowercased label), skipping
nodes whose normalized label is empty; every group of at least two
members with a non-empty normalized label yields exactly one
duplicate-label issue listing all member ids, a node of a different type
never joins that group, and the Email/email example yields one issue
listing both ids while the same-label table stays out. -/
theorem claim_C8 :
    (∀ (nodes : List Node) (t l : String),
      (nodes.map Node.id).Nodup →
      (∀ n ∈ nonMemberNodes nodes,
        n.type ∈ (["datapoint", "component", "transform", "table", "screen", "image"] : List String)) →
      t ∈ (["datapoint", "component", "transform", "table"] : List String) →
      l ≠ "" →
      2 ≤ ((nonMemberNodes nodes).filter (fun n => n.type == t && normLabel n == l)).length →
      ((duplicateIssuesOf nodes).countP (fun i =>
          i.nodeIds == ((nonMemberNodes nodes).filter
            (fun n => n.type == t && normLabel n == l)).map Node.id) = 1 ∧
       (nonMemberNodes nodes).filter (fun u => !(u.type == t) &&
          (((nonMemberNodes nodes).filter (fun n => n.type == t && normLabel n == l)).map
            Node.id).contains u.id) = [])) ∧
    (duplicateIssuesOf [c8e1, c8e2, c8e3]).map (fun i => i.nodeIds) = [["n1", "n2"]] := by
  constructor
  · intro nodes t l hnd hkinds ht hl hlen
    have hnd2 : ((nonMemberNodes nodes).map Node.id).Nodup := nonMember_ids_nodup nodes hnd
    have htfree : ':' ∉ t.data := by fin_cases ht <;> decide
    have htne : t ≠ "image" ∧ t ≠ "screen" := by fin_cases ht <;> exact ⟨by decide, by decide⟩
    have hnfree : ∀ n ∈ nonMemberNodes nodes, ':' ∉ n.type.data := by
      intro n hn
      have hk := hkinds n hn
      simp only [List.mem_cons, List.not_mem_nil, or_false] at hk
      rcases hk with h | h | h | h | h | h <;> rw [h] <;> decide
    have hfeq : (nonMemberNodes nodes).filter (fun n => n.type == t && normLabel n == l) =
        (nonMemberNodes nodes).filter (fun n => dupEligible n && (dupKey n == t ++ ":" ++ l)) := by
      refine List.filter_congr (fun n hn => ?_)
      rw [dupKey_eq_iff n t l (hnfree n hn) htfree]
      by_cases hA : (n.type == t && normLabel n == l) = true
      · have h1 : n.type = t := by
          have := (Bool.and_eq_true ..).mp hA
          simpa using this.1
        have h2 : normLabel n = l := by
          have := (Bool.and_eq_true ..).mp hA
          simpa using this.2
        have he : dupEligible n = true := by
          unfold dupEligible
          simp [h1, h2, htne.1, htne.2, hl]
        rw [hA, he]
        rfl
      · have hA2 : (n.type == t && normLabel n == l) = false := by
          simpa using hA
        rw [hA2, Bool.and_false]
    rw [hfeq]
    have hGids : ∀ k : String,
        groupIds ((nonMemberNodes nodes).foldl dupFold []) k =
          ((nonMemberNodes nodes).filter (fun n => dupEligible n && (dupKey n == k))).map Node.id := by
      intro k
      have := dupFold_groupIds (nonMemberNodes nodes) [] k
      simpa [groupIds] using this
    have hGnd : (groupKeys ((nonMemberNodes nodes).foldl dupFold [])).Nodup :=
      dupFold_keys_nodup (nonMemberNodes nodes) [] (by simp [groupKeys])
    have hids : ∀ p ∈ (nonMemberNodes nodes).foldl dupFold [], p.2.ids =
        ((nonMemberNodes nodes).filter (fun n => dupEligible n && (dupKey n == p.1))).map Node.id := by
      intro p hp
      have hfs := find?_self_of_keys_nodup _ hGnd p hp
      have : groupIds ((nonMemberNodes nodes).foldl dupFold []) p.1 = p.2.ids := by
        unfold groupIds
        rw [hfs]
        rfl
      rw [← this, hGids p.1]
    have hlen2 : 2 ≤ (((nonMemberNodes nodes).filter
        (fun n => dupEligible n && (dupKey n == t ++ ":" ++ l))).map Node.id).length := by
      rw [List.length_map, ← hfeq]
      exact hlen
    have hinj : ∀ k' ∈ groupKeys ((nonMemberNodes nodes).foldl dupFold []), k' ≠ t ++ ":" ++ l →
        ((nonMemberNodes nodes).filter (fun n => dupEligible n && (dupKey n == k'))).map Node.id ≠
        ((nonMemberNodes nodes).filter (fun n => dupEligible n && (dupKey n == t ++ ":" ++ l))).map Node.id := by
      intro k' _ hk' hFeq
      have hne : (((nonMemberNodes nodes).filter
          (fun n => dupEligible n && (dupKey n == t ++ ":" ++ l))).map Node.id) ≠ [] := by
        intro hnil
        rw [hnil] at hlen2
        simp at hlen2
      obtain ⟨id0, hid0⟩ := List.exists_mem_of_ne_nil _ hne
      have hid0' : id0 ∈ ((nonMemberNodes nodes).filter
          (fun n => dupEligible n && (dupKey n == k'))).map Node.id := by
        rw [hFeq]
        exact hid0
      obtain ⟨v, hv, hvid⟩ := List.mem_map.mp hid0
      obtain ⟨u, hu, huid⟩ := List.mem_map.mp hid0'
      have hvns := (List.mem_filter.mp hv).1
      have huns := (List.mem_filter.mp hu).1
      have huv : u = v := eq_of_mem_id_nodup _ hnd2 u v huns hvns (by rw [huid, hvid])
      have hvk : dupKey v = t ++ ":" ++ l := by
        have := (List.mem_filter.mp hv).2
        have hb := ((Bool.and_eq_true ..).mp this).2
        simpa using hb
      have huk : dupKey u = k' := by
        have := (List.mem_filter.mp hu).2
        have hb := ((Bool.and_eq_true ..).mp this).2
        simpa using hb
      exact hk' (by rw [← huk, huv, hvk])
    have hex : ∃ p ∈ (nonMemberNodes nodes).foldl dupFold [], p.1 = t ++ ":" ++ l := by
      have hGne : groupIds ((nonMemberNodes nodes).foldl dupFold []) (t ++ ":" ++ l) ≠ [] := by
        rw [hGids]
        intro hnil
        rw [hnil] at hlen2
        simp at hlen2
      unfold groupIds at hGne
      cases hf : ((nonMemberNodes nodes).foldl dupFold []).find?
          (fun p => p.1 == t ++ ":" ++ l) with
      | none => rw [hf] at hGne; simp at hGne
      | some p =>
        refine ⟨p, List.mem_of_find?_eq_some hf, ?_⟩
        have := List.find?_some hf
        simpa using this
    constructor
    · have hone := emit_countP_one
        (fun p => if p.2.ids.length < 2 then []
          else
            [⟨"duplicate-label", p.2.ids,
              (match p.2.ids.head? with
                | some fid =>
                  (match (nonMemberNodes nodes).find? (fun n => n.id == fid) with
                    | some fn => fn.data.label.getD ("")
                    | none => "")
                | none => ""), p.2.type, severity ("duplicate-label")⟩])
        (fun k' => ((nonMemberNodes nodes).filter
          (fun n => dupEligible n && (dupKey n == k'))).map Node.id)
        (fun p => by by_cases h : p.2.ids.length < 2 <;> simp [h])
        ((nonMemberNodes nodes).foldl dupFold []) (t ++ ":" ++ l)
        hGnd hids hinj hex hlen2
      exact hone
    · rw [← hfeq]
      refine List.filter_eq_nil_iff.mpr (fun u hu => ?_)
      simp only [Bool.and_eq_true, Bool.not_eq_true', beq_eq_false_iff_ne]
      intro hcond
      obtain ⟨hut, hcont⟩ := hcond
      have hmem : u.id ∈ ((nonMemberNodes nodes).filter
          (fun n => n.type == t && normLabel n == l)).map Node.id := List.elem_iff.mp hcont
      obtain ⟨v, hv, hvid⟩ := List.mem_map.mp hmem
      have hvt : v.type = t := by
        have := (List.mem_filter.mp hv).2
        have hb := ((Bool.and_eq_true ..).mp this).1
        simpa using hb
      have huv : u = v :=
        eq_of_mem_id_nodup _ hnd2 u v hu (List.mem_filter.mp hv).1 (by rw [hvid])
      exact hut (by rw [huv, hvt])
  · decide

/-- Witness for C8: the (datapoint, email) group of the Email/email
example yields exactly one issue listing both ids, and the same-label
table node never joins. -/
theorem claim_C8_witness :
    ((duplicateIssuesOf [c8e1, c8e2, c8e3]).countP (fun i =>
        i.nodeIds == ((nonMemberNodes [c8e1, c8e2, c8e3]).filter
          (fun n => n.type == "datapoint" && normLabel n == "email")).map Node.id) = 1 ∧
     (nonMemberNodes [c8e1, c8e2, c8e3]).filter (fun u => !(u.type == "datapoint") &&
        (((nonMemberNodes [c8e1, c8e2, c8e3]).filter
          (fun n => n.type == "datapoint" && normLabel n == "email")).map
            Node.id).contains u.id) = []) :=
  claim_C8.1 [c8e1, c8e2, c8e3] "datapoint" "email"
    (by decide) (by decide) (by decide) (by decide) (by decide)

def c2dp : Node := ⟨"d", "datapoint",
  ⟨some ("x"), some ("string"), some ("captured"), none, none, none, none⟩⟩

/-- Counterexample to C2 as stated: a graph with an empty edge list but
one datapoint node yields two issues (missing-source and orphan-node),
so `counts.total` is 2 and the report has no short-circuit text. -/
theorem claim_C2_counterexample :
    (countsOf [c2dp] []).total = 2 ∧
    noIssuesLine ∉ reportLines ("P") [c2dp] [] := by
  decide

/-- C2 (amended): a graph with zero nodes produces a report with
`counts.total = 0` and exactly the no-issues short-circuit text,
whatever the edge list; an empty edge list alone does not guarantee
this. -/
theorem claim_C2 :
    ∀ (edges : List Edge) (projectName : String),
      (countsOf [] edges).total = 0 ∧
      reportLines projectName [] edges =
        ["## Data Flow Validation for " ++ projectName, "", noIssuesLine] :=
  fun _ _ => ⟨rfl, rfl⟩

theorem memberFold_eq (ms : List WorkflowMember) :
    ∀ acc : List String,
      ms.foldl (fun acc m =>
        match m.transformId with
        | some tid => if tid = "" then acc else acc ++ [tid]
        | none => acc) acc =
      acc ++ ms.flatMap (fun m =>
        match m.transformId with
        | some tid => if tid = "" then [] else [tid]
        | none => []) := by
  induction ms with
  | nil => intro acc; simp
  | cons m ms ih =>
    intro acc
    rw [List.foldl_cons, List.flatMap_cons, ih]
    cases m.transformId with
    | none => simp
    | some tid =>
      by_cases h : tid = "" <;> simp [h]

theorem collectFold_eq (l : List Node) :
    ∀ acc : List String,
      l.foldl (fun ids n =>
        if n.type != "transform" then ids
        else if n.data.type != some ("workflow") then ids
        else match n.data.members with
          | none => ids
          | some ms => ms.foldl (fun acc m =>
              match m.transformId with
              | some tid => if tid != "" then acc ++ [tid] else acc
              | none => acc) ids) acc =
      acc ++ l.flatMap (fun n =>
        if n.type != "transform" then []
        else if n.data.type != some ("workflow") then []
        else match n.data.members with
          | none => []
          | some ms => ms.flatMap (fun m =>
              match m.transformId with
              | some tid => if tid != "" then [tid] else []
              | none => [])) := by
  induction l with
  | nil => intro acc; simp
  | cons n ns ih =>
    intro acc
    rw [List.foldl_cons, List.flatMap_cons, ih]
    by_cases h1 : (n.type != "transform") = true
    · simp [h1]
    · by_cases h2 : (n.data.type != some ("workflow")) = true
      · simp [h1, h2]
      · cases hm : n.data.members with
        | none => simp [h1, h2, hm]
        | some ms =>
          simp [h1, h2, hm]
          rw [memberFold_eq]
          simp [List.append_assoc]

/-- The exclusion set as one pass over the nodes. -/
theorem collect_eq_flatMap (nodes : List Node) :
    collectWorkflowMemberIds nodes = nodes.flatMap (fun n =>
      if n.type != "transform" then []
      else if n.data.type != some ("workflow") then []
      else match n.data.members with
        | none => []
        | some ms => ms.flatMap (fun m =>
            match m.transformId with
            | some tid => if tid != "" then [tid] else []
            | none => [])) := by
  unfold collectWorkflowMemberIds
  have h := collectFold_eq nodes []
  simpa using h

def c10w : Node := ⟨"w", "transform",
  ⟨some ("W"), some ("workflow"), none, none, none, none, some [⟨"s", some ("")⟩]⟩⟩

def c10z : Node := ⟨"", "datapoint",
  ⟨some ("Z"), some ("string"), some ("captured"), none, none, none, none⟩⟩

/-- Counterexample to C10 as stated: the empty string appears as a
workflow member's `transformId` and a node with id "" exists, yet the
truthiness guard keeps "" out of the exclusion set, so that node is NOT
excluded — the orphan check still reports it. -/
theorem claim_C10_counterexample :
    c10w.data.members = some [⟨"s", some ("")⟩] ∧
    c10z ∈ [c10w, c10z] ∧
    c10z.id = "" ∧
    "" ∉ collectWorkflowMemberIds [c10w, c10z] ∧
    (orphanIssuesOf [c10w, c10z] []).countP (fun i => i.nodeId == "") = 1 := by
  decide

/-- C10 (amended): the exclusion set contains every NON-EMPTY
members[].transformId of every workflow-type transform, with no check
that the id resolves; every node whose id is in the set is removed from
the node list handed to the provenance, transform I/O,
component-reference, type-reconciliation, cycle, orphan, TBD and
duplicate-label checks, while the workflow check receives the full list;
and the workflow check raises no dangling-member or nested-workflow
issue for a member whose transformId resolves to an existing node that
is not a workflow-type transform. -/
theorem claim_C10 :
    (∀ (nodes : List Node) (n : Node) (ms : List WorkflowMember) (m : WorkflowMember) (t : String),
      n ∈ nodes → n.type = "transform" → n.data.type = some ("workflow") →
      n.data.members = some ms → m ∈ ms → m.transformId = some t → t ≠ "" →
      t ∈ collectWorkflowMemberIds nodes) ∧
    (∀ (nodes : List Node) (node : Node),
      node ∈ nodes → node.id ∈ collectWorkflowMemberIds nodes →
      node ∉ nonMemberNodes nodes) ∧
    (∀ (nodes : List Node) (edges : List Edge),
      dataPointIssuesOf nodes edges = validateDataPointSources (nonMemberNodes nodes) edges ∧
      transformIssuesOf nodes edges = validateTransforms (nonMemberNodes nodes) edges ∧
      componentIssuesOf nodes edges = validateComponentReferences (nonMemberNodes nodes) edges ∧
      tableMismatchesOf nodes edges = validateTableDataPointTypes (nonMemberNodes nodes) edges ∧
      circularIssuesOf nodes edges = detectCircularDependencies (nonMemberNodes nodes) edges ∧
      orphanIssuesOf nodes edges = validateOrphans (nonMemberNodes nodes) edges ∧
      tbdIssuesOf nodes = validateTbdIssues (nonMemberNodes nodes) ∧
      duplicateIssuesOf nodes = validateDuplicateLabels (nonMemberNodes nodes) ∧
      workflowIssuesOf nodes edges = validateWorkflows nodes edges) ∧
    (∀ (nodes : List Node) (n : Node) (lab : Option String) (m : WorkflowMember)
        (t : String) (nd : Node),
      m.transformId = some t →
      nodes.find? (fun x => x.id == t) = some nd →
      ¬(nd.type = "transform" ∧ nd.data.type = some ("workflow")) →
      memberDangling (nodes.map (fun x => x.id)) n lab m = [] ∧
      memberNested nodes n lab m = []) := by
  refine ⟨?_, ?_, fun nodes edges => ⟨rfl, rfl, rfl, rfl, rfl, rfl, rfl, rfl, rfl⟩, ?_⟩
  · intro nodes n ms m t hmem h2 h3 hms hm hmt ht
    rw [collect_eq_flatMap]
    refine List.mem_flatMap.mpr ⟨n, hmem, ?_⟩
    rw [if_neg (by simp [h2]), if_neg (by simp [h3]), hms]
    dsimp only
    refine List.mem_flatMap.mpr ⟨m, hm, ?_⟩
    rw [hmt]
    dsimp only
    rw [if_pos (by simpa using ht)]
    exact List.mem_singleton.mpr rfl
  · intro nodes node hmem hin hcontra
    have hpred := (List.mem_filter.mp hcontra).2
    rw [Bool.not_eq_true'] at hpred
    have htrue : (collectWorkflowMemberIds nodes).contains node.id = true :=
      List.elem_iff.mpr hin
    rw [htrue] at hpred
    cases hpred
  · intro nodes n lab m t nd hmt hf hnw
    have hndid : nd.id = t := by
      have := List.find?_some hf
      simpa using this
    have hcont : ((nodes.map (fun x => x.id)).contains t) = true :=
      List.elem_iff.mpr (hndid ▸ List.mem_map.mpr ⟨nd, List.mem_of_find?_eq_some hf, rfl⟩)
    constructor
    · unfold memberDangling
      rw [hmt]
      dsimp only
      rw [hcont]
      simp
    · unfold memberNested
      rw [hmt]
      dsimp only
      by_cases h0 : t = ""
      · rw [if_pos (by simp [h0])]
      · rw [if_neg (by simp [h0]), hf]
        dsimp only
        have hb : (nd.type == "transform" && nd.data.type == some ("workflow")) = false := by
          by_cases e1 : nd.type = "transform"
          · by_cases e2 : nd.data.type = some ("workflow")
            · exact absurd ⟨e1, e2⟩ hnw
            · simp [e2]
          · simp [e1]
        rw [hb]
        rfl

def c10m : Node := ⟨"m", "datapoint",
  ⟨some ("M"), some ("string"), some ("captured"), none, none, none, none⟩⟩

def c10w2 : Node := ⟨"w", "transform",
  ⟨some ("W"), some ("workflow"), none, none, none, none, some [⟨"s", some ("m")⟩]⟩⟩

/-- Witness for C10: a member id "m" naming a datapoint node lands in
the exclusion set (no resolution check) and that node is removed from
the standard-check node pool. -/
theorem claim_C10_witness :
    "m" ∈ collectWorkflowMemberIds [c10w2, c10m] ∧
    c10m ∉ nonMemberNodes [c10w2, c10m] :=
  ⟨claim_C10.1 [c10w2, c10m] c10w2 [⟨"s", some ("m")⟩] ⟨"s", some ("m")⟩ "m"
      (by decide) rfl rfl rfl (by decide) rfl (by decide),
   claim_C10.2.1 [c10w2, c10m] c10m (by decide) (by decide)⟩

-- ─── C9: defaults for absent optional fields ─────────────────────

/-- Normalization replacing an absent `source` by its default
`'captured'`; every other field is untouched.  C9 states the validator
cannot distinguish a datapoint with no `source` from one with
`source = 'captured'`, i.e. it is invariant under this map. -/
def normSourceData (d : NodeData) : NodeData :=
  ⟨d.label, d.type, some (d.source.getD ("captured")), d.captures, d.displays, d.columns, d.members⟩

def normSourceNode (n : Node) : Node :=
  ⟨n.id, n.type, normSourceData n.data⟩

theorem normSource_getD (n : Node) :
    (normSourceNode n).data.source.getD ("captured") = n.data.source.getD ("captured") := by
  cases h : n.data.source <;> simp [normSourceNode, normSourceData, h]

theorem normSource_retrieved (n : Node) :
    ((normSourceNode n).data.source == some ("retrieved")) =
      (n.data.source == some ("retrieved")) := by
  cases h : n.data.source <;> simp [normSourceNode, normSourceData, h]

theorem map_norm_find?_id (ns : List Node) (x : String) :
    (ns.map normSourceNode).find? (fun n => n.id == x) =
      (ns.find? (fun n => n.id == x)).map normSourceNode := by
  induction ns with
  | nil => rfl
  | cons a as ih =>
    by_cases h : (a.id == x) = true
    · rw [List.map_cons, find?_cons_pos (fun n => n.id == x) (normSourceNode a) _ h,
          find?_cons_pos (fun n => n.id == x) a as h]
      rfl
    · rw [List.map_cons,
          find?_cons_neg (fun n => n.id == x) (normSourceNode a) _ (by simpa using h),
          find?_cons_neg (fun n => n.id == x) a as (by simpa using h), ih]

theorem map_norm_ids (ns : List Node) :
    (ns.map normSourceNode).map (fun x => x.id) = ns.map (fun x => x.id) := by
  rw [List.map_map]
  rfl

theorem map_norm_ids' (ns : List Node) :
    (ns.map normSourceNode).map Node.id = ns.map Node.id := by
  rw [List.map_map]
  rfl

theorem nodeLabels_norm (ns : List Node) :
    nodeLabels (ns.map normSourceNode) = nodeLabels ns := by
  unfold nodeLabels
  rw [List.map_map]
  rfl

theorem flatMap_congr' {α β : Type} (l : List α) (f g : α → List β)
    (h : ∀ a ∈ l, f a = g a) : l.flatMap f = l.flatMap g := by
  induction l with
  | nil => rfl
  | cons a as ih =>
    rw [List.flatMap_cons, List.flatMap_cons, h a (List.mem_cons_self a as),
        ih (fun b hb => h b (List.mem_cons_of_mem a hb))]

theorem collect_norm (ns : List Node) :
    collectWorkflowMemberIds (ns.map normSourceNode) = collectWorkflowMemberIds ns := by
  rw [collect_eq_flatMap, collect_eq_flatMap, List.flatMap_map]
  rfl

theorem nonMember_norm (ns : List Node) :
    nonMemberNodes (ns.map normSourceNode) = (nonMemberNodes ns).map normSourceNode := by
  unfold nonMemberNodes
  rw [collect_norm, List.filter_map]
  rfl

theorem normSourceNode_id (n : Node) : (normSourceNode n).id = n.id := rfl

theorem normSourceNode_type (n : Node) : (normSourceNode n).type = n.type := rfl

theorem normSourceNode_label (n : Node) : (normSourceNode n).data.label = n.data.label := rfl

theorem normSourceNode_dtype (n : Node) : (normSourceNode n).data.type = n.data.type := rfl

theorem normSourceNode_members (n : Node) :
    (normSourceNode n).data.members = n.data.members := rfl

theorem normSourceNode_captures (n : Node) :
    (normSourceNode n).data.captures = n.data.captures := rfl

theorem normSourceNode_displays (n : Node) :
    (normSourceNode n).data.displays = n.data.displays := rfl

theorem map_congr' {α β : Type} (l : List α) (f g : α → β)
    (h : ∀ a ∈ l, f a = g a) : l.map f = l.map g := by
  induction l with
  | nil => rfl
  | cons a as ih =>
    rw [List.map_cons, List.map_cons, h a (List.mem_cons_self a as),
        ih (fun b hb => h b (List.mem_cons_of_mem a hb))]

theorem any_congr {α : Type} (l : List α) (p q : α → Bool)
    (h : ∀ a ∈ l, p a = q a) : l.any p = l.any q := by
  induction l with
  | nil => rfl
  | cons a as ih =>
    rw [List.any_cons, List.any_cons, h a (List.mem_cons_self a as),
        ih (fun b hb => h b (List.mem_cons_of_mem a hb))]

theorem foldl_congr' {α β : Type} (l : List α) (f g : β → α → β)
    (h : ∀ b a, f b a = g b a) : ∀ init : β, l.foldl f init = l.foldl g init := by
  induction l with
  | nil => intro init; rfl
  | cons a as ih =>
    intro init
    rw [List.foldl_cons, List.foldl_cons, h init a, ih]

theorem dpIncomingQualifies_norm (ns : List Node) (dp : Node) (e : Edge) :
    dpIncomingQualifies (ns.map normSourceNode) (normSourceNode dp) e =
      dpIncomingQualifies ns dp e := by
  unfold dpIncomingQualifies
  rw [map_norm_find?_id]
  cases hf : ns.find? (fun n => n.id == e.source) <;> rfl

theorem dpSourceNodeTypes_norm (ns : List Node) (inc : List Edge) :
    dpSourceNodeTypes (ns.map normSourceNode) inc = dpSourceNodeTypes ns inc := by
  unfold dpSourceNodeTypes
  have hF : inc.map (fun e =>
      match (ns.map normSourceNode).find? (fun n => n.id == e.source) with
      | some sn => sn.type
      | none => "unknown") = inc.map (fun e =>
      match ns.find? (fun n => n.id == e.source) with
      | some sn => sn.type
      | none => "unknown") := by
    refine map_congr' _ _ _ (fun e _ => ?_)
    rw [map_norm_find?_id]
    cases ns.find? (fun n => n.id == e.source) <;> rfl
  rw [hF]

theorem dpSourceBody_norm (ns : List Node) (es : List Edge) (dp : Node) :
    dpSourceBody (ns.map normSourceNode) es (normSourceNode dp) = dpSourceBody ns es dp := by
  have h1 : dpIncomingQualifies (ns.map normSourceNode) (normSourceNode dp) =
      dpIncomingQualifies ns dp := funext (dpIncomingQualifies_norm ns dp)
  simp only [dpSourceBody, h1, dpSourceNodeTypes_norm, normSource_getD, normSourceNode_label,
    normSourceNode_id]

theorem validateDataPointSources_norm (ns : List Node) (es : List Edge) :
    validateDataPointSources (ns.map normSourceNode) es = validateDataPointSources ns es := by
  unfold validateDataPointSources
  rw [List.filter_map, List.flatMap_map]
  exact flatMap_congr' _ _ _ (fun n _ => dpSourceBody_norm ns es n)

theorem validateTransforms_norm (ns : List Node) (es : List Edge) :
    validateTransforms (ns.map normSourceNode) es = validateTransforms ns es := by
  unfold validateTransforms
  rw [List.filter_map, List.flatMap_map]
  rfl

theorem validateTbdIssues_norm (ns : List Node) :
    validateTbdIssues (ns.map normSourceNode) = validateTbdIssues ns := by
  unfold validateTbdIssues
  rw [List.flatMap_map]
  rfl

theorem validateOrphans_norm (ns : List Node) (es : List Edge) :
    validateOrphans (ns.map normSourceNode) es = validateOrphans ns es := by
  unfold validateOrphans
  dsimp only
  rw [List.filter_map, List.map_map]
  rfl

theorem componentBody_norm (ns : List Node) (es : List Edge) (c : Node) :
    componentBody (ns.map normSourceNode) es (normSourceNode c) = componentBody ns es c := by
  have hasDp_eq : (es.filter (fun e => e.source == c.id || e.target == c.id)).any
      (fun e =>
        match (ns.map normSourceNode).find? (fun n => n.id ==
            (if e.source == c.id then e.target else e.source)) with
        | some other => other.type == "datapoint"
        | none => false) =
    (es.filter (fun e => e.source == c.id || e.target == c.id)).any
      (fun e =>
        match ns.find? (fun n => n.id ==
            (if e.source == c.id then e.target else e.source)) with
        | some other => other.type == "datapoint"
        | none => false) := by
    refine any_congr _ _ _ (fun e _ => ?_)
    rw [map_norm_find?_id]
    cases ns.find? (fun n => n.id == (if e.source == c.id then e.target else e.source)) <;> rfl
  simp only [componentBody, map_norm_ids, nodeLabels_norm, normSourceNode_id,
    normSourceNode_label, normSourceNode_captures, normSourceNode_displays]
  rw [hasDp_eq]

theorem validateComponentReferences_norm (ns : List Node) (es : List Edge) :
    validateComponentReferences (ns.map normSourceNode) es = validateComponentReferences ns es := by
  unfold validateComponentReferences
  rw [List.filter_map, List.flatMap_map]
  exact flatMap_congr' _ _ _ (fun c _ => componentBody_norm ns es c)

theorem dpTableEdges_norm (ns : List Node) (es : List Edge) (dp : Node) :
    dpTableEdges (ns.map normSourceNode) es (normSourceNode dp) = dpTableEdges ns es dp := by
  unfold dpTableEdges
  refine List.filter_congr (fun e _ => ?_)
  rw [normSourceNode_id, map_norm_find?_id]
  cases ns.find? (fun n => n.id == e.source) <;> rfl

theorem mismatchForEdge_norm (ns : List Node) (dp : Node) (e : Edge) :
    mismatchForEdge (ns.map normSourceNode) (normSourceNode dp) e = mismatchForEdge ns dp e := by
  unfold mismatchForEdge
  rw [List.filter_map]
  have hfe : ns.filter ((fun n => n.type == "table") ∘ normSourceNode) =
      ns.filter (fun n => n.type == "table") := rfl
  rw [hfe, map_norm_find?_id]
  cases (ns.filter (fun n => n.type == "table")).find? (fun t => t.id == e.source) <;> rfl

theorem validateTableDataPointTypes_norm (ns : List Node) (es : List Edge) :
    validateTableDataPointTypes (ns.map normSourceNode) es = validateTableDataPointTypes ns es := by
  unfold validateTableDataPointTypes
  rw [List.filter_map]
  have hp : ns.filter ((fun n => n.type == "datapoint" && n.data.source == some ("retrieved")) ∘
      normSourceNode) = ns.filter (fun n => n.type == "datapoint" &&
        n.data.source == some ("retrieved")) := by
    refine List.filter_congr (fun n _ => ?_)
    show ((normSourceNode n).type == "datapoint" &&
      (normSourceNode n).data.source == some ("retrieved")) = _
    rw [normSourceNode_type, normSource_retrieved]
  rw [hp, List.flatMap_map]
  refine flatMap_congr' _ _ _ (fun dp _ => ?_)
  rw [dpTableEdges_norm]
  exact flatMap_congr' _ _ _ (fun e _ => mismatchForEdge_norm ns dp e)

theorem initAdjacency_norm (ns : List Node) :
    initAdjacency (ns.map normSourceNode) = initAdjacency ns := by
  unfold initAdjacency
  rw [List.foldl_map]
  rfl

theorem buildAdjacency_norm (ns : List Node) (es : List Edge) :
    buildAdjacency (ns.map normSourceNode) es = buildAdjacency ns es := by
  unfold buildAdjacency
  rw [initAdjacency_norm]

theorem detectCircularDependencies_norm (ns : List Node) (es : List Edge) :
    detectCircularDependencies (ns.map normSourceNode) es =
      detectCircularDependencies ns es := by
  simp only [detectCircularDependencies]
  rw [buildAdjacency_norm, List.length_map, List.foldl_map]
  refine congrArg Prod.snd ?_
  refine foldl_congr' _ _ _ (fun acc cyc => ?_) _
  have hlab : cyc.map (fun i =>
      match (ns.map normSourceNode).find? (fun n => n.id == i) with
      | some n => n.data.label.getD ("Unknown")
      | none => "Unknown") = cyc.map (fun i =>
      match ns.find? (fun n => n.id == i) with
      | some n => n.data.label.getD ("Unknown")
      | none => "Unknown") := by
    refine map_congr' _ _ _ (fun i _ => ?_)
    rw [map_norm_find?_id]
    cases ns.find? (fun n => n.id == i) <;> rfl
  rw [hlab]

theorem memberNested_norm (ns : List Node) (n : Node) (lab : Option String)
    (m : WorkflowMember) :
    memberNested (ns.map normSourceNode) n lab m = memberNested ns n lab m := by
  unfold memberNested
  cases m.transformId with
  | none => rfl
  | some tid =>
    dsimp only
    by_cases h0 : (tid == "") = true
    · rw [if_pos h0, if_pos h0]
    · rw [if_neg h0, if_neg h0, map_norm_find?_id]
      cases ns.find? (fun mn => mn.id == tid) <;> rfl

theorem workflowBody_norm (ns : List Node) (es : List Edge) (n : Node) :
    workflowBody (ns.map normSourceNode) es (normSourceNode n) = workflowBody ns es n := by
  show workflowBody (ns.map normSourceNode) es (normSourceNode n) = _
  have hstep : workflowBody (ns.map normSourceNode) es (normSourceNode n) =
      workflowBody (ns.map normSourceNode) es n := rfl
  rw [hstep]
  unfold workflowBody
  by_cases h1 : (n.type != "transform") = true
  · rw [if_pos h1, if_pos h1]
  · rw [if_neg h1, if_neg h1]
    by_cases h2 : (n.data.type != some ("workflow")) = true
    · rw [if_pos h2, if_pos h2]
    · rw [if_neg h2, if_neg h2]
      cases hm : n.data.members with
      | none => rfl
      | some ms =>
        dsimp only
        by_cases h0 : (ms.length == 0) = true
        · rw [if_pos h0, if_pos h0]
        · rw [if_neg h0, if_neg h0, map_norm_ids]
          have hnest : ms.flatMap (memberNested (ns.map normSourceNode) n n.data.label) =
              ms.flatMap (memberNested ns n n.data.label) :=
            flatMap_congr' _ _ _ (fun m _ => memberNested_norm ns n n.data.label m)
          rw [hnest]

theorem validateWorkflows_norm (ns : List Node) (es : List Edge) :
    validateWorkflows (ns.map normSourceNode) es = validateWorkflows ns es := by
  unfold validateWorkflows
  rw [List.flatMap_map]
  exact flatMap_congr' _ _ _ (fun n _ => workflowBody_norm ns es n)

theorem validateDuplicateLabels_norm (ns : List Node) :
    validateDuplicateLabels (ns.map normSourceNode) = validateDuplicateLabels ns := by
  simp only [validateDuplicateLabels]
  rw [List.foldl_map]
  have hfold : ns.foldl (fun acc a => dupFold acc (normSourceNode a)) [] =
      ns.foldl dupFold [] :=
    foldl_congr' _ _ _ (fun acc a => rfl) []
  rw [hfold]
  refine flatMap_congr' _ _ _ (fun p _ => ?_)
  by_cases hl : p.2.ids.length < 2
  · rw [if_pos hl, if_pos hl]
  · rw [if_neg hl, if_neg hl]
    cases hh : p.2.ids.head? with
    | none => rfl
    | some fid =>
      dsimp only
      rw [map_norm_find?_id]
      cases (ns.find? (fun n => n.id == fid)) <;> rfl

theorem sev_partition (sevs : List Severity) :
    sevs.length = (sevs.filter (fun s => s == Severity.error)).length +
      (sevs.filter (fun s => s == Severity.warning)).length +
      (sevs.filter (fun s => s == Severity.info)).length := by
  induction sevs with
  | nil => rfl
  | cons s ss ih =>
    cases s <;> simp [List.filter_cons, ih] <;> omega

theorem dataPointIssuesOf_norm (nodes : List Node) (edges : List Edge) :
    dataPointIssuesOf (nodes.map normSourceNode) edges = dataPointIssuesOf nodes edges := by
  unfold dataPointIssuesOf
  rw [nonMember_norm, validateDataPointSources_norm]

theorem transformIssuesOf_norm (nodes : List Node) (edges : List Edge) :
    transformIssuesOf (nodes.map normSourceNode) edges = transformIssuesOf nodes edges := by
  unfold transformIssuesOf
  rw [nonMember_norm, validateTransforms_norm]

theorem componentIssuesOf_norm (nodes : List Node) (edges : List Edge) :
    componentIssuesOf (nodes.map normSourceNode) edges = componentIssuesOf nodes edges := by
  unfold componentIssuesOf
  rw [nonMember_norm, validateComponentReferences_norm]

theorem tableMismatchesOf_norm (nodes : List Node) (edges : List Edge) :
    tableMismatchesOf (nodes.map normSourceNode) edges = tableMismatchesOf nodes edges := by
  unfold tableMismatchesOf
  rw [nonMember_norm, validateTableDataPointTypes_norm]

theorem circularIssuesOf_norm (nodes : List Node) (edges : List Edge) :
    circularIssuesOf (nodes.map normSourceNode) edges = circularIssuesOf nodes edges := by
  unfold circularIssuesOf
  rw [nonMember_norm, detectCircularDependencies_norm]

theorem workflowIssuesOf_norm (nodes : List Node) (edges : List Edge) :
    workflowIssuesOf (nodes.map normSourceNode) edges = workflowIssuesOf nodes edges := by
  unfold workflowIssuesOf
  rw [validateWorkflows_norm]

theorem orphanIssuesOf_norm (nodes : List Node) (edges : List Edge) :
    orphanIssuesOf (nodes.map normSourceNode) edges = orphanIssuesOf nodes edges := by
  unfold orphanIssuesOf
  rw [nonMember_norm, validateOrphans_norm]

theorem tbdIssuesOf_norm (nodes : List Node) :
    tbdIssuesOf (nodes.map normSourceNode) = tbdIssuesOf nodes := by
  unfold tbdIssuesOf
  rw [nonMember_norm, validateTbdIssues_norm]

theorem duplicateIssuesOf_norm (nodes : List Node) :
    duplicateIssuesOf (nodes.map normSourceNode) = duplicateIssuesOf nodes := by
  unfold duplicateIssuesOf
  rw [nonMember_norm, validateDuplicateLabels_norm]

theorem countsOf_norm (nodes : List Node) (edges : List Edge) :
    countsOf (nodes.map normSourceNode) edges = countsOf nodes edges := by
  simp only [countsOf, allSeveritiesOf, dataPointIssuesOf_norm, transformIssuesOf_norm,
    componentIssuesOf_norm, tableMismatchesOf_norm, circularIssuesOf_norm,
    workflowIssuesOf_norm, orphanIssuesOf_norm, tbdIssuesOf_norm, duplicateIssuesOf_norm]

theorem reportLines_norm (projectName : String) (nodes : List Node) (edges : List Edge) :
    reportLines projectName (nodes.map normSourceNode) edges =
      reportLines projectName nodes edges := by
  simp only [reportLines, dataPointIssuesOf_norm, transformIssuesOf_norm,
    componentIssuesOf_norm, tableMismatchesOf_norm, circularIssuesOf_norm,
    workflowIssuesOf_norm, orphanIssuesOf_norm, tbdIssuesOf_norm, duplicateIssuesOf_norm,
    countsOf_norm]

/-- C9: the validator is total over well-typed graphs — the report's
counts always partition (total = error + warning + info); a datapoint
with no `data.source` field is treated exactly as if its source were
`'captured'` (normalizing every absent source to `'captured'` changes
neither the counts nor a single report line); and a transform with no
`data.type` field is treated as a non-workflow transform (it is a
candidate of the transform I/O check and contributes nothing to the
workflow check). -/
theorem claim_C9 :
    (∀ (nodes : List Node) (edges : List Edge),
      (countsOf nodes edges).total =
        (countsOf nodes edges).error + (countsOf nodes edges).warning +
          (countsOf nodes edges).info) ∧
    (∀ (nodes : List Node) (edges : List Edge) (projectName : String),
      countsOf (nodes.map normSourceNode) edges = countsOf nodes edges ∧
      reportLines projectName (nodes.map normSourceNode) edges =
        reportLines projectName nodes edges) ∧
    (∀ (nodes : List Node) (edges : List Edge) (t : Node),
      t.type = "transform" → t.data.type = none →
      transformCandidate t = true ∧ workflowBody nodes edges t = []) := by
  refine ⟨?_, ?_, ?_⟩
  · intro nodes edges
    exact sev_partition (allSeveritiesOf nodes edges)
  · intro nodes edges projectName
    exact ⟨countsOf_norm nodes edges, reportLines_norm projectName nodes edges⟩
  · intro nodes edges t h2 h3
    constructor
    · refine transformCandidate_true t h2 ?_
      intro hc
      rw [h3] at hc
      cases hc
    · unfold workflowBody
      rw [if_neg (show ¬((t.type != "transform") = true) by simp [h2]),
          if_pos (show (t.data.type != some ("workflow")) = true by rw [h3]; rfl)]

def c9t : Node := ⟨"t9", "transform", ⟨some ("T"), none, none, none, none, none, none⟩⟩

/-- Witness for C9: a transform with no `data.type` is a transform-check
candidate and yields no workflow issues. -/
theorem claim_C9_witness :
    transformCandidate c9t = true ∧ workflowBody [c9t] [] c9t = [] :=
  claim_C9.2.2 [c9t] [] c9t rfl rfl
